import Mathlib

/-!
# Verification of the Teal language front end and instruction model

Shallow embedding of `src/teal_lang/machine/instruction.py` and
`src/teal_lang/teal_parser/parser.py`, plus spec-modelled parts
(runtime values, AST node record, virtual machine) whose source files are
not in the repository snapshot.
-/

namespace Teal

/-! ## Serialized values

Modelled from the spec: the serialization form of runtime values is "a
composition of only: strings, numbers, booleans, null, and ordered
sequences/maps of values" (spec section 3, Runtime Value).  Maps are
represented as ordered sequences of pairs, themselves sequences. -/

inductive SValue : Type where
  | str  (s : String)
  | int  (n : Int)
  | bool (b : Bool)
  | null
  | list (xs : List SValue)
deriving Repr

/-! ## Runtime values (`TlType`)

Modelled from the spec: `machine/types.py` (the `TlType` runtime value
class) is absent from the snapshot.  The spec (section 3) describes "the
language's tagged value type (numbers, strings, booleans, null, symbols,
lists, maps, closures, task handles)" whose values "must round-trip
through a serialization form".  Closures are represented by a function
name (they are the `callable` operands of the instruction layer), task
handles by a numeric id. -/

inductive TlType : Type where
  | tlNull
  | tlBool   (b : Bool)
  | tlInt    (n : Int)
  | tlStr    (s : String)
  | tlSymbol (s : String)
  | tlFuture (id : Int)
  | tlFunc   (name : String)
  | tlList   (xs : List TlType)
deriving Repr

/-- Modelled from the spec: tagged, lossless serialization of a runtime
value into the composition form of section 3. -/
def TlType.serialise : TlType → SValue
  | .tlNull      => .list [.str "null"]
  | .tlBool b    => .list [.str "bool", .bool b]
  | .tlInt n     => .list [.str "int", .int n]
  | .tlStr s     => .list [.str "str", .str s]
  | .tlSymbol s  => .list [.str "symbol", .str s]
  | .tlFuture n  => .list [.str "future", .int n]
  | .tlFunc f    => .list [.str "func", .str f]
  | .tlList xs   => .list [.str "list", .list (xs.attach.map fun x => TlType.serialise x.1)]
decreasing_by
  have h := List.sizeOf_lt_of_mem x.2
  simp only [TlType.tlList.sizeOf_spec]
  omega

mutual
/-- Modelled from the spec: the inverse of `TlType.serialise`; fails
(`none`) on values outside the serialization image. -/
def TlType.deserialise : SValue → Option TlType
  | .list [.str "null"]              => some .tlNull
  | .list [.str "bool", .bool b]     => some (.tlBool b)
  | .list [.str "int", .int n]       => some (.tlInt n)
  | .list [.str "str", .str s]       => some (.tlStr s)
  | .list [.str "symbol", .str s]    => some (.tlSymbol s)
  | .list [.str "future", .int n]    => some (.tlFuture n)
  | .list [.str "func", .str f]      => some (.tlFunc f)
  | .list [.str "list", .list xs]    => (TlType.deserialiseL xs).map .tlList
  | _ => none

/-- Deserialise a list of serialized values, failing if any element fails. -/
def TlType.deserialiseL : List SValue → Option (List TlType)
  | [] => some []
  | x :: rest => do
      let t ← TlType.deserialise x
      let ts ← TlType.deserialiseL rest
      pure (t :: ts)
end

/-- Each serialised element of a list deserialises to the element itself,
provided every element individually round-trips. -/
theorem deserialiseL_map_serialise (xs : List TlType)
    (h : ∀ t ∈ xs, TlType.deserialise t.serialise = some t) :
    TlType.deserialiseL (xs.map TlType.serialise) = some xs := by
  induction xs with
  | nil => rfl
  | cons hd tl ih =>
      have h1 := h hd (by simp)
      have h2 := ih (fun t ht => h t (by simp [ht]))
      simp [TlType.deserialiseL, h1, h2]

/-- Runtime-value round trip: deserialising a serialised value gives the
value back. -/
theorem TlType.deserialise_serialise (t : TlType) :
    TlType.deserialise t.serialise = some t := by
  have H : ∀ (n : Nat) (t : TlType), sizeOf t ≤ n →
      TlType.deserialise t.serialise = some t := by
    intro n
    induction n with
    | zero => intro t h; cases t <;> simp at h
    | succ n ih =>
        intro t h
        cases t with
        | tlList xs =>
            have hmap : xs.attach.map (fun x => TlType.serialise x.1)
                = xs.map TlType.serialise := by
              simp [List.map_attach]
            simp only [TlType.serialise, hmap, TlType.deserialise]
            rw [deserialiseL_map_serialise xs]
            · rfl
            · intro t ht
              have hs := List.sizeOf_lt_of_mem ht
              have hsz : sizeOf (TlType.tlList xs) = 1 + sizeOf xs := by simp
              exact ih t (by omega)
        | tlNull => simp [TlType.serialise, TlType.deserialise]
        | tlBool b => simp [TlType.serialise, TlType.deserialise]
        | tlInt m => simp [TlType.serialise, TlType.deserialise]
        | tlStr s => simp [TlType.serialise, TlType.deserialise]
        | tlSymbol s => simp [TlType.serialise, TlType.deserialise]
        | tlFuture m => simp [TlType.serialise, TlType.deserialise]
        | tlFunc f => simp [TlType.serialise, TlType.deserialise]
  exact H (sizeOf t) t le_rfl

/-- Serialisation is a left inverse of deserialisation: any serialized value
accepted by `TlType.deserialise` is recovered exactly by `TlType.serialise`.
Proved together with its list version by strong induction on the size of
the serialized value. -/
theorem TlType.serialise_of_deserialise :
    ∀ (v : SValue) (t : TlType), TlType.deserialise v = some t →
      t.serialise = v := by
  intro v
  refine TlType.deserialise.induct
    (fun v => ∀ t, TlType.deserialise v = some t → t.serialise = v)
    (fun l => ∀ ts, TlType.deserialiseL l = some ts → ts.map TlType.serialise = l)
    ?_ ?_ ?_ ?_ ?_ ?_ ?_ ?_ ?_ ?_ ?_ v
  · intro t h
    rw [TlType.deserialise] at h; cases h; simp [TlType.serialise]
  · intro b t h
    rw [TlType.deserialise] at h; cases h; simp [TlType.serialise]
  · intro m t h
    rw [TlType.deserialise] at h; cases h; simp [TlType.serialise]
  · intro s t h
    rw [TlType.deserialise] at h; cases h; simp [TlType.serialise]
  · intro s t h
    rw [TlType.deserialise] at h; cases h; simp [TlType.serialise]
  · intro m t h
    rw [TlType.deserialise] at h; cases h; simp [TlType.serialise]
  · intro f t h
    rw [TlType.deserialise] at h; cases h; simp [TlType.serialise]
  · intro xs ihl t h
    rw [TlType.deserialise] at h
    cases hds : TlType.deserialiseL xs with
    | none => rw [hds] at h; cases h
    | some ts =>
        rw [hds] at h
        cases h
        simp only [TlType.serialise, List.map_attach, List.pmap_eq_map, ihl ts hds]
  · intro w h1 h2 h3 h4 h5 h6 h7 h8 t h
    rw [TlType.deserialise.eq_def] at h
    split at h
    all_goals first
      | (exact absurd rfl h1)
      | (exact absurd rfl (h2 _))
      | (exact absurd rfl (h3 _))
      | (exact absurd rfl (h4 _))
      | (exact absurd rfl (h5 _))
      | (exact absurd rfl (h6 _))
      | (exact absurd rfl (h7 _))
      | (exact absurd rfl (h8 _))
      | (cases h)
  · intro ts h
    rw [TlType.deserialiseL] at h; cases h; rfl
  · intro x rest ihx ihr ts h
    rw [TlType.deserialiseL] at h
    cases hdx : TlType.deserialise x with
    | none => rw [hdx] at h; cases h
    | some t =>
        rw [hdx] at h
        cases hdr : TlType.deserialiseL rest with
        | none => rw [hdr] at h; cases h
        | some ts' =>
            rw [hdr] at h
            cases h
            simp [ihx t hdx, ihr ts' hdr]

/-! ## Python equality on runtime values

Modelled from the spec: `TlType.__eq__` (in the absent `machine/types.py`)
compares values structurally; instruction equality delegates to it
operandwise. -/

mutual
/-- Structural equality of runtime values, as Python `==` on `TlType`. -/
def TlType.pyEq : TlType → TlType → Bool
  | .tlNull, .tlNull => true
  | .tlBool a, .tlBool b => a == b
  | .tlInt a, .tlInt b => a == b
  | .tlStr a, .tlStr b => a == b
  | .tlSymbol a, .tlSymbol b => a == b
  | .tlFuture a, .tlFuture b => a == b
  | .tlFunc a, .tlFunc b => a == b
  | .tlList xs, .tlList ys => TlType.pyEqL xs ys
  | _, _ => false

/-- Elementwise `pyEq` on equal-length lists. -/
def TlType.pyEqL : List TlType → List TlType → Bool
  | [], [] => true
  | x :: xs, y :: ys => TlType.pyEq x y && TlType.pyEqL xs ys
  | _, _ => false
end

/-! ## Instructions (`machine/instruction.py`) -/

/-- A Python object handed to `Instruction.__init__` as an operand: either a
runtime `TlType` value, or any other host value (`raw`), which the
constructor must reject.  The `raw` payload is just a printable tag. -/
inductive PyObj : Type where
  | tl  (v : TlType)
  | raw (descr : String)
deriving Repr

/-- An entry of an instruction class's `op_types` list: either the Python
`callable` builtin, the `TlType` base class, or one of its per-variant
subclasses (the concrete subclasses live in the absent `machine/types.py`;
their tags mirror the `TlType` variants). -/
inductive OpKind : Type where
  | kCallable | kTlType
  | kNull | kBool | kInt | kStr | kSymbol | kFuture | kFunc | kList
deriving Repr, DecidableEq

/-- Python `isinstance(a, b)` for a `TlType` value against an `op_types`
class entry. -/
def tlIsInstance (v : TlType) : OpKind → Bool
  | .kTlType   => true
  | .kCallable => false     -- `callable` is not a class; handled separately
  | .kNull     => match v with | .tlNull     => true | _ => false
  | .kBool     => match v with | .tlBool _   => true | _ => false
  | .kInt      => match v with | .tlInt _    => true | _ => false
  | .kStr      => match v with | .tlStr _    => true | _ => false
  | .kSymbol   => match v with | .tlSymbol _ => true | _ => false
  | .kFuture   => match v with | .tlFuture _ => true | _ => false
  | .kFunc     => match v with | .tlFunc _   => true | _ => false
  | .kList     => match v with | .tlList _   => true | _ => false

/-- Python `callable(a)`: among runtime values only function/closure values
are callable (modelled from the spec's closures). -/
def pyCallable : PyObj → Bool
  | .tl (.tlFunc _) => true
  | _ => false

/-- `isinstance(a, b)` on a raw constructor argument; a non-`TlType` host
object is an instance of none of the `op_types` classes we model. -/
def pyIsInstance : PyObj → OpKind → Bool
  | .tl v, k => tlIsInstance v k
  | .raw _, _ => false

/-- Python `str(x)` on a serialized value, as applied by
`Instruction.__init__` to each source-trace entry.  On a string it is the
string itself (the only case any claim depends on); the other renderings
follow Python's conventions. -/
def pyStr : SValue → String
  | .str s => s
  | .int n => toString n
  | .bool true => "True"
  | .bool false => "False"
  | .null => "None"
  | .list _ => "[...]"

/-- An instruction class: `type(self).__name__` plus the `num_ops` and
`op_types` class attributes of `Instruction` subclasses (both default to
`None` on the base class, `instruction.py` lines 18-19). -/
structure InstrClass : Type where
  name    : String
  num_ops : Option Nat := none
  op_types : Option (List OpKind) := none
deriving Repr

/-- The two construction-time errors of `instruction.py` (lines 7-12),
with the arguments the source passes to them. -/
inductive InitError : Type where
  | badOperandsType   (iname : String) (operand : PyObj) (expected : OpKind)
  | badOperandsLength (iname : String) (got : Nat) (want : Nat)
deriving Repr

/-- A constructed instruction: `self.name`, `self.operands` (all `TlType`
after the constructor's check), `self.source` (stringified). -/
structure Instruction : Type where
  name     : String
  operands : List TlType
  source   : List String
deriving Repr

/-- The first operand that is not a `TlType` (the constructor's
`for o in operands: if not isinstance(o, TlType)` loop). -/
def firstNonTl : List PyObj → Option PyObj
  | [] => none
  | .tl _ :: rest => firstNonTl rest
  | .raw d :: _ => some (.raw d)

/-- The per-position test of the constructor's `op_types` loop:
`ok = callable(a) if b == callable else isinstance(a, b)`. -/
def opTypeOk (a : PyObj) (b : OpKind) : Bool :=
  if b = .kCallable then pyCallable a else pyIsInstance a b

/-- The first `zip(operands, op_types)` pair failing `opTypeOk`. -/
def firstKindMismatch : List PyObj → List OpKind → Option (PyObj × OpKind)
  | a :: as, b :: bs =>
      if opTypeOk a b then firstKindMismatch as bs else some (a, b)
  | _, _ => none

/-- The underlying `TlType` of an operand known to pass the type check. -/
def PyObj.asTl : PyObj → Option TlType
  | .tl v => some v
  | .raw _ => none

/-- `Instruction.__init__` (`instruction.py` lines 22-42): stringify the
source trace, reject the first non-`TlType` operand with
`BadOperandsType(name, o, TlType)`, then — when `num_ops` is truthy
(Python: neither `None` nor `0`) — reject a wrong operand count with
`BadOperandsLength`, then — when `op_types` is truthy (neither `None` nor
empty) — reject the first kind mismatch under `zip` with
`BadOperandsType`.  On success the operands (all `TlType` by now) and the
stringified source are stored. -/
def Instruction.init (cls : InstrClass) (operands : List PyObj)
    (source : List SValue) : Except InitError Instruction :=
  let name := cls.name
  let src := source.map pyStr
  match firstNonTl operands with
  | some o => .error (.badOperandsType name o .kTlType)
  | none =>
    let lenBad : Bool :=
      match cls.num_ops with
      | some n => n != 0 && operands.length != n
      | none => false
    if lenBad then
      .error (.badOperandsLength name operands.length (cls.num_ops.getD 0))
    else
      let kindCheck :=
        match cls.op_types with
        | some l => if l.isEmpty then none else firstKindMismatch operands l
        | none => none
      match kindCheck with
      | some (a, b) => .error (.badOperandsType name a b)
      | none => .ok ⟨name, operands.filterMap PyObj.asTl, src⟩

/-- `Instruction.serialise` (`instruction.py` lines 44-47):
`[self.name, [o.serialise() for o in self.operands], self.source]`. -/
def Instruction.serialise (i : Instruction) : SValue :=
  .list [.str i.name, .list (i.operands.map TlType.serialise),
         .list (i.source.map SValue.str)]

/-- An instruction set module: `getattr(instruction_set, name)` resolves a
class name to an instruction class, or fails. -/
def InstructionSet : Type := String → Option InstrClass

/-- The failures `Instruction.deserialise` can propagate, in the order the
source can hit them. `unknownOpcode` is the `AttributeError` raised by
`getattr(instruction_set, name)` when `name` is not in the supplied
module — the spec's `UnknownOpcode` taxonomy entry. -/
inductive DeserError : Type where
  | indexError
  | typeError
  | operandError
  | unknownOpcode (name : String)
  | initError (e : InitError)
deriving Repr

/-- `Instruction.deserialise` (`instruction.py` lines 49-58):
`name = obj[0]`, `operands = [TlType.deserialise(o) for o in obj[1]]`,
`source = obj[2]`, then
`getattr(instruction_set, name)(*operands, source=source)`, in that
order. -/
def Instruction.deserialise (obj : SValue) (iset : InstructionSet) :
    Except DeserError Instruction :=
  match obj with
  | .list l =>
    match l[0]? with
    | none => .error .indexError
    | some nameV =>
      match l[1]? with
      | none => .error .indexError
      | some opsV =>
        match opsV with
        | .list opsL =>
          match TlType.deserialiseL opsL with
          | none => .error .operandError
          | some ops =>
            match l[2]? with
            | none => .error .indexError
            | some srcV =>
              match nameV with
              | .str name =>
                match iset name with
                | none => .error (.unknownOpcode name)
                | some cls =>
                  match srcV with
                  | .list srcL =>
                      (Instruction.init cls (ops.map PyObj.tl) srcL).mapError
                        DeserError.initError
                  | _ => .error .typeError
              | _ => .error .typeError
        | _ => .error .typeError
  | _ => .error .typeError

/-- `Instruction.__eq__` (`instruction.py` lines 65-68):
`type(self) == type(other)` (classes are identified by their name within
one instruction-set module) `and all(a == b for a, b in
zip(self.operands, other.operands))`. -/
def Instruction.eq (a b : Instruction) : Bool :=
  a.name == b.name &&
    ((a.operands.zip b.operands).all fun p => TlType.pyEq p.1 p.2)

/-! ### Instruction-layer lemmas -/

/-- List version of `TlType.serialise_of_deserialise`. -/
theorem TlType.serialiseL_of_deserialiseL (l : List SValue) :
    ∀ ts, TlType.deserialiseL l = some ts → ts.map TlType.serialise = l := by
  induction l with
  | nil => intro ts h; rw [TlType.deserialiseL] at h; cases h; rfl
  | cons a l ih =>
      intro ts h
      rw [TlType.deserialiseL] at h
      cases hda : TlType.deserialise a with
      | none => rw [hda] at h; cases h
      | some t =>
          rw [hda] at h
          cases hdl : TlType.deserialiseL l with
          | none => rw [hdl] at h; cases h
          | some ts' =>
              rw [hdl] at h; cases h
              simp [TlType.serialise_of_deserialise a t hda, ih ts' hdl]

/-- The constructor's `TlType` scan accepts a list of wrapped runtime
values. -/
theorem firstNonTl_map_tl (l : List TlType) :
    firstNonTl (l.map PyObj.tl) = none := by
  induction l with
  | nil => rfl
  | cons a l ih => simpa [firstNonTl] using ih

/-- Unwrapping wrapped runtime values is the identity. -/
theorem filterMap_asTl_map_tl (l : List TlType) :
    List.filterMap (PyObj.asTl ∘ PyObj.tl) l = l := by
  induction l with
  | nil => rfl
  | cons a l ih => simp [PyObj.asTl, ih]

/-- A successful construction from wrapped runtime values stores the class
name, exactly those values, and the stringified source. -/
theorem Instruction.init_map_tl (cls : InstrClass) (ts : List TlType)
    (src : List SValue) (i : Instruction)
    (h : Instruction.init cls (ts.map PyObj.tl) src = .ok i) :
    i = ⟨cls.name, ts, src.map pyStr⟩ := by
  simp only [Instruction.init, firstNonTl_map_tl] at h
  split at h
  · cases h
  · split at h
    · cases h
    · cases h
      simp [filterMap_asTl_map_tl]

/-- Stringifying a list of string values and re-wrapping gives the list
back. -/
theorem map_str_pyStr (srcs : List SValue)
    (h : ∀ s ∈ srcs, ∃ u, s = SValue.str u) :
    (srcs.map pyStr).map SValue.str = srcs := by
  induction srcs with
  | nil => rfl
  | cons a l ih =>
      obtain ⟨u, rfl⟩ := h a (by simp)
      simp only [List.map_cons, pyStr]
      rw [ih (fun s hs => h s (by simp [hs]))]

/-! ### Claims about the instruction layer -/

/-- **C1.** For every well-formed serialized instruction value
`x = [opcode_name, operands, source_trace]` whose opcode name resolves in
the supplied instruction set to a class of that name, whose source-trace
entries are strings, and whose deserialisation succeeds, serialising the
result of deserialising `x` yields `x` again — and the serialized form is
exactly the three-element list
`[opcode_name, serialized operands, source-trace strings]`. -/
theorem C1_instruction_roundtrip (nm : String) (ops srcs : List SValue)
    (iset : InstructionSet) (cls : InstrClass)
    (hcls : iset nm = some cls) (hname : cls.name = nm)
    (hsrc : ∀ s ∈ srcs, ∃ u, s = SValue.str u) (i : Instruction)
    (hok : Instruction.deserialise (.list [.str nm, .list ops, .list srcs])
             iset = .ok i) :
    i.serialise = .list [.str nm, .list ops, .list srcs] := by
  simp only [Instruction.deserialise, List.getElem?_cons_zero,
    List.getElem?_cons_succ, hcls] at hok
  cases hL : TlType.deserialiseL ops with
  | none => simp only [hL] at hok; cases hok
  | some ts =>
      simp only [hL] at hok
      cases hI : Instruction.init cls (ts.map PyObj.tl) srcs with
      | error e => simp [hI, Except.mapError] at hok
      | ok i' =>
          simp only [hI, Except.mapError, Except.ok.injEq] at hok
          have hival := Instruction.init_map_tl cls ts srcs i' hI
          rw [← hok, hival]
          simp [Instruction.serialise, hname,
            TlType.serialiseL_of_deserialiseL ops ts hL,
            map_str_pyStr srcs hsrc]

/-- Demonstration instruction class: opcode `Foo` taking one operand of
unconstrained kind. -/
def fooCls : InstrClass := { name := "Foo", num_ops := some 1 }

/-- Demonstration instruction-set module binding the name `Foo` to
`fooCls`. -/
def demoISet : InstructionSet :=
  fun nm => if nm = "Foo" then some fooCls else none

/-- Concrete round trip: applies `C1_instruction_roundtrip` to the
serialized `Foo` instruction with operand `7` and one trace line. -/
theorem C1_instruction_roundtrip_witness :
    Instruction.serialise ⟨"Foo", [.tlInt 7], ["line 1"]⟩
      = .list [.str "Foo", .list [.list [.str "int", .int 7]],
               .list [.str "line 1"]] := by
  have hok : Instruction.deserialise
      (.list [.str "Foo", .list [.list [.str "int", .int 7]],
              .list [.str "line 1"]]) demoISet
      = .ok ⟨"Foo", [.tlInt 7], ["line 1"]⟩ := by
    simp [Instruction.deserialise, demoISet, fooCls, TlType.deserialiseL,
      TlType.deserialise, Instruction.init, firstNonTl, pyStr,
      PyObj.asTl, Except.mapError]
  have h := C1_instruction_roundtrip "Foo" [.list [.str "int", .int 7]]
    [.str "line 1"] demoISet fooCls rfl rfl
    (by intro s hs; simp at hs; exact ⟨"line 1", hs⟩)
    ⟨"Foo", [.tlInt 7], ["line 1"]⟩ hok
  exact h

/-- If some operand is not a runtime value, the constructor's scan finds
an offender. -/
theorem firstNonTl_isSome_of_raw (ops : List PyObj)
    (h : ∃ o ∈ ops, PyObj.asTl o = none) :
    ∃ o, firstNonTl ops = some o := by
  induction ops with
  | nil => simp at h
  | cons a l ih =>
      cases a with
      | raw d => exact ⟨.raw d, rfl⟩
      | tl v =>
          obtain ⟨o, ho, hnone⟩ := h
          rcases List.mem_cons.mp ho with rfl | ho
          · simp [PyObj.asTl] at hnone
          · obtain ⟨o', ho'⟩ := ih ⟨o, ho, hnone⟩
            exact ⟨o', by simpa [firstNonTl] using ho'⟩

/-- If every operand is a runtime value, the constructor's scan accepts. -/
theorem firstNonTl_eq_none (ops : List PyObj)
    (h : ∀ o ∈ ops, (PyObj.asTl o).isSome) :
    firstNonTl ops = none := by
  induction ops with
  | nil => rfl
  | cons a l ih =>
      cases a with
      | raw d =>
          have hh := h (.raw d) (by simp)
          simp [PyObj.asTl] at hh
      | tl v => simpa [firstNonTl] using ih (fun o ho => h o (by simp [ho]))

/-- If some zipped operand/kind pair fails the per-position test, the
constructor's `op_types` loop finds a mismatch. -/
theorem firstKindMismatch_isSome (ops : List PyObj) :
    ∀ (l : List OpKind), (∃ p ∈ ops.zip l, opTypeOk p.1 p.2 = false) →
      ∃ ab, firstKindMismatch ops l = some ab := by
  induction ops with
  | nil => intro l h; simp at h
  | cons a as ih =>
      intro l h
      cases l with
      | nil => simp at h
      | cons b bs =>
          by_cases hab : opTypeOk a b
          · obtain ⟨p, hp, hf⟩ := h
            rcases List.mem_cons.mp hp with rfl | hp
            · rw [hab] at hf; cases hf
            · obtain ⟨ab, hab2⟩ := ih bs ⟨p, hp, hf⟩
              exact ⟨ab, by simpa [firstKindMismatch, hab] using hab2⟩
          · exact ⟨(a, b), by simp [firstKindMismatch, hab]⟩

/-- **C2 (counterexample).** The claim says a wrong operand count "always
raises `BadOperandsLength`", but the constructor checks `TlType`-ness of
every operand first (`instruction.py` lines 28-30 precede lines 32-34):
constructing `Foo` (declared arity 1) with the two operands
`[non-TlType, null]` raises `BadOperandsType`, not `BadOperandsLength`,
even though the operand count is wrong. -/
theorem C2_badoperands_counterexample :
    Instruction.init fooCls [.raw "host-object", .tl .tlNull] []
        = .error (.badOperandsType "Foo" (.raw "host-object") .kTlType) ∧
      [PyObj.raw "host-object", PyObj.tl .tlNull].length ≠ fooCls.num_ops.getD 0 := by
  exact ⟨rfl, by decide⟩

/-- **C2 (amended).** Construction never silently defaults, and validates
in the source's order: (a) if any operand is not a runtime `TlType`
value, construction fails with `BadOperandsType` (this check runs first);
(b) if all operands are runtime values and the class declares a nonzero
arity (`num_ops` truthy) different from the operand count, construction
fails with `BadOperandsLength`; (c) if all operands are runtime values,
the declared arity is satisfied (or not truthily declared), and some
position of `zip(operands, op_types)` fails its declared kind,
construction fails with `BadOperandsType`. -/
theorem C2_badoperands_amended (cls : InstrClass) (ops : List PyObj)
    (src : List SValue) :
    ((∃ o ∈ ops, PyObj.asTl o = none) →
       ∃ o k, Instruction.init cls ops src
          = .error (.badOperandsType cls.name o k)) ∧
    ((∀ o ∈ ops, (PyObj.asTl o).isSome) →
       ∀ n, cls.num_ops = some n → n ≠ 0 → ops.length ≠ n →
       Instruction.init cls ops src
          = .error (.badOperandsLength cls.name ops.length n)) ∧
    ((∀ o ∈ ops, (PyObj.asTl o).isSome) →
       (∀ n, cls.num_ops = some n → n = 0 ∨ ops.length = n) →
       ∀ l, cls.op_types = some l →
       (∃ p ∈ ops.zip l, opTypeOk p.1 p.2 = false) →
       ∃ o k, Instruction.init cls ops src
          = .error (.badOperandsType cls.name o k)) := by
  refine ⟨?_, ?_, ?_⟩
  · intro h
    obtain ⟨o, ho⟩ := firstNonTl_isSome_of_raw ops h
    exact ⟨o, .kTlType, by simp [Instruction.init, ho]⟩
  · intro h n hn hn0 hlen
    have h0 := firstNonTl_eq_none ops h
    simp only [Instruction.init, h0, hn]
    have : (n != 0 && ops.length != n) = true := by
      simp [hn0, hlen]
    simp [this]
  · intro h harity l hl hmis
    have h0 := firstNonTl_eq_none ops h
    obtain ⟨⟨o, k⟩, hfk⟩ := firstKindMismatch_isSome ops l hmis
    have hle : l ≠ [] := by
      rintro rfl; simp at hmis
    have hlen : (match cls.num_ops with
        | some n => n != 0 && ops.length != n
        | none => false) = false := by
      cases hno : cls.num_ops with
      | none => rfl
      | some n =>
          rcases harity n hno with rfl | hL
          · simp
          · simp [hL]
    refine ⟨o, k, ?_⟩
    simp [Instruction.init, h0, hlen, hl, List.isEmpty_iff, hle, hfk]

/-- Applies `C2_badoperands_amended` concretely: `Foo` (arity 1) built
with no operands fails with `BadOperandsLength("Foo", 0, 1)`. -/
theorem C2_badoperands_amended_witness :
    Instruction.init fooCls [] [] = .error (.badOperandsLength "Foo" 0 1) :=
  (C2_badoperands_amended fooCls [] []).2.1 (by simp) 1 rfl (by decide)
    (by decide)

/-- Demonstration instruction class with the base-class defaults: no
declared arity (`num_ops = None`) and no declared operand kinds
(`instruction.py` lines 18-19). -/
def barCls : InstrClass := { name := "Bar" }

/-- **C3 (counterexample).** The claim says equality "fails whenever the
operand counts differ", but `__eq__` compares operands through Python
`zip`, which truncates to the shorter list: two constructible `Bar`
instructions with operands `[1]` and `[1, 2]` compare equal even though
their operand counts differ. -/
theorem C3_instruction_eq_counterexample :
    Instruction.init barCls [.tl (.tlInt 1)] [] = .ok ⟨"Bar", [.tlInt 1], []⟩ ∧
    Instruction.init barCls [.tl (.tlInt 1), .tl (.tlInt 2)] []
        = .ok ⟨"Bar", [.tlInt 1, .tlInt 2], []⟩ ∧
    Instruction.eq ⟨"Bar", [.tlInt 1], []⟩ ⟨"Bar", [.tlInt 1, .tlInt 2], []⟩
        = true ∧
    [TlType.tlInt 1].length ≠ [TlType.tlInt 1, TlType.tlInt 2].length := by
  refine ⟨rfl, rfl, ?_, by decide⟩
  simp [Instruction.eq, TlType.pyEq]

/-- **C3 (amended).** Instruction equality holds iff the two instructions
are the same opcode (class) and their operands compare equal pairwise up
to the shorter operand list (Python `zip` truncates, so differing operand
counts alone never falsify equality); the source-trace lists never
influence the result. -/
theorem C3_instruction_eq_amended (a b : Instruction)
    (s1 s2 : List String) :
    Instruction.eq ⟨a.name, a.operands, s1⟩ ⟨b.name, b.operands, s2⟩
        = Instruction.eq a b ∧
    (Instruction.eq a b = true ↔ (a.name = b.name ∧
        ∀ p ∈ a.operands.zip b.operands, TlType.pyEq p.1 p.2 = true)) := by
  constructor
  · rfl
  · simp [Instruction.eq, List.all_eq_true]

/-- **C7.** Deserialising a serialized instruction value whose opcode
name is absent from the supplied instruction set fails with the
unknown-opcode error (the `AttributeError` of the failed `getattr`
lookup, the spec's `UnknownOpcode`), not with success or an unrelated
error — provided the operand payloads themselves are deserialisable, as
they are in any serialized instruction value. -/
theorem C7_deserialise_unknown_opcode (nm : String) (ops : List SValue)
    (srcV : SValue) (iset : InstructionSet) (hnone : iset nm = none)
    (hops : (TlType.deserialiseL ops).isSome) :
    Instruction.deserialise (.list [.str nm, .list ops, srcV]) iset
        = .error (.unknownOpcode nm) := by
  obtain ⟨ts, hts⟩ := Option.isSome_iff_exists.mp hops
  simp [Instruction.deserialise, hts, hnone]

/-- Applies `C7_deserialise_unknown_opcode` concretely: the name `Nope`
is not bound in `demoISet`, so deserialisation reports it as unknown. -/
theorem C7_deserialise_unknown_opcode_witness :
    Instruction.deserialise
        (.list [.str "Nope", .list [], .list []]) demoISet
      = .error (.unknownOpcode "Nope") :=
  C7_deserialise_unknown_opcode "Nope" [] (.list []) demoISet
    (by simp [demoISet]) (by rw [TlType.deserialiseL]; rfl)

/-! ## Tokens and the statement-terminator normalizer
(`teal_parser/parser.py`)

A token carries the fields sly gives it: `type`, `value`, `lineno`,
`index` (`parser.py` line 24 of the spec's data model; sly sets `index`
to the absolute offset of the match start). -/

structure Token : Type where
  type   : String
  value  : String
  lineno : Nat
  index  : Nat
deriving Repr, DecidableEq

/-- The synthetic terminator `post_lex` yields (`parser.py` lines
137-139, 150-151): type `TERM`, value `";"`, with line/index taken from
the token current at the insertion point. -/
def termTok (lineno index : Nat) : Token := ⟨"TERM", ";", lineno, index⟩

/-- The sentinel `nl` appended to the stream (`parser.py` lines 140-141,
145): only its `type` is ever read. -/
def nlSentinel : Token := ⟨"NL", "", 0, 0⟩

/-- One iteration condition of `post_lex` (`parser.py` lines 153-158):
fires only when something has been emitted (`last`) and it was not a
terminator, and the current/lookahead pair sits at a block or line
boundary. -/
def postLexCond (last : Option Token) (t next_tok : Token) : Bool :=
  match last with
  | none => false
  | some lt =>
      lt.type != "TERM" &&
        ((t.type == "\x7d" && next_tok.type != "TERM")
          || (next_tok.type == "\x7d" && t.type != "TERM")
          || (next_tok.type == "NL" && t.type != "TERM"))

/-- The loop of `post_lex` (`parser.py` lines 143-162): `t` is the
current token, `last` the last emitted token (if any), `rest` the
remaining lookahead stream (`chain(toks, [nl])` minus what has been
consumed).  Each iteration emits `t` unless it is an `NL`, then emits a
synthetic terminator when `postLexCond` fires. -/
def postLexLoop (t : Token) (last : Option Token) :
    List Token → List Token
  | [] => []
  | next_tok :: rest =>
      let out1 : List Token := if t.type ≠ "NL" then [t] else []
      let last1 : Option Token := if t.type ≠ "NL" then some t else last
      if postLexCond last1 t next_tok then
        out1 ++ termTok t.lineno t.index ::
          postLexLoop next_tok (some (termTok t.lineno t.index)) rest
      else
        out1 ++ postLexLoop next_tok last1 rest

/-- `post_lex` (`parser.py` lines 135-162).  On the empty stream the
Python generator raises (its initial `next(toks)` fails); the empty
output stands in for that unreachable case. -/
def postLex (toks : List Token) : List Token :=
  match toks with
  | [] => []
  | t :: rest => postLexLoop t none (rest ++ [nlSentinel])

/-- Instrumented variant of the `post_lex` loop, identical in structure,
tagging each emitted token with `true` iff it is a synthetic terminator
inserted by the normalizer (not present in the input). -/
def postLexLoopTagged (t : Token) (last : Option Token) :
    List Token → List (Token × Bool)
  | [] => []
  | next_tok :: rest =>
      let out1 : List (Token × Bool) := if t.type ≠ "NL" then [(t, false)] else []
      if postLexCond (if t.type ≠ "NL" then some t else last) t next_tok then
        out1 ++ (termTok t.lineno t.index, true) ::
          postLexLoopTagged next_tok (some (termTok t.lineno t.index)) rest
      else
        out1 ++ postLexLoopTagged next_tok
          (if t.type ≠ "NL" then some t else last) rest

/-- Instrumented `post_lex`. -/
def postLexTagged (toks : List Token) : List (Token × Bool) :=
  match toks with
  | [] => []
  | t :: rest => postLexLoopTagged t none (rest ++ [nlSentinel])

/-- `true` iff no element tagged as synthetic immediately follows a
`TERM`-typed element. -/
def noSynthAfterTerm : List (Token × Bool) → Bool
  | [] => true
  | [_] => true
  | a :: b :: rest =>
      (!(a.1.type == "TERM" && b.2)) && noSynthAfterTerm (b :: rest)

/-- `true` iff the token list contains two consecutive `TERM` tokens. -/
def hasConsecutiveTERM : List Token → Bool
  | a :: b :: rest =>
      (a.type == "TERM" && b.type == "TERM") || hasConsecutiveTERM (b :: rest)
  | _ => false

/-- Erasing the tags of the instrumented loop gives the loop itself. -/
theorem postLexLoopTagged_fst :
    ∀ (rest : List Token) (t : Token) (last : Option Token),
      (postLexLoopTagged t last rest).map Prod.fst = postLexLoop t last rest := by
  intro rest
  induction rest with
  | nil => intro t last; rfl
  | cons next_tok rest ih =>
      intro t last
      by_cases hnl : t.type = "NL" <;>
        [by_cases hc : postLexCond last t next_tok;
         by_cases hc : postLexCond (some t) t next_tok] <;>
        simp [postLexLoopTagged, postLexLoop, hnl, hc, ih]

/-- The prepended context used to track the last emitted token while
checking `noSynthAfterTerm` across recursive calls. -/
def lastEntry : Option Token → List (Token × Bool)
  | none => []
  | some lt => [(lt, false)]

/-- `noSynthAfterTerm` on a two-or-more list decomposes into the first
adjacency check and the rest. -/
theorem noSynthAfterTerm_cons (a b : Token × Bool) (l : List (Token × Bool)) :
    noSynthAfterTerm (a :: b :: l)
      = ((!(a.1.type == "TERM" && b.2)) && noSynthAfterTerm (b :: l)) := rfl

/-- The tag of the first element does not affect `noSynthAfterTerm`: only
its token type is consulted. -/
theorem noSynthAfterTerm_head_flag (tok : Token) (s1 s2 : Bool)
    (l : List (Token × Bool)) :
    noSynthAfterTerm ((tok, s1) :: l) = noSynthAfterTerm ((tok, s2) :: l) := by
  cases l <;> rfl

/-- Prepending a context element with tag `false` only adds a vacuous
adjacency check. -/
theorem noSynthAfterTerm_lastEntry (last : Option Token)
    (x : Token) (l : List (Token × Bool)) :
    noSynthAfterTerm (lastEntry last ++ (x, false) :: l)
      = noSynthAfterTerm ((x, false) :: l) := by
  cases last with
  | none => rfl
  | some lt => simp [lastEntry, noSynthAfterTerm_cons]

/-- Core invariant of the normalizer: a synthetic terminator is only
inserted when the last emitted token was not a terminator, so no
synthetic `TERM` ever directly follows an emitted token of type `TERM`,
including the `last` context token the loop starts from. -/
theorem postLexLoopTagged_ok :
    ∀ (rest : List Token) (t : Token) (last : Option Token),
      noSynthAfterTerm (lastEntry last ++ postLexLoopTagged t last rest)
        = true := by
  intro rest
  induction rest with
  | nil =>
      intro t last
      cases last with
      | none => rfl
      | some lt => rfl
  | cons next_tok rest ih =>
      intro t last
      by_cases hnl : t.type = "NL"
      · by_cases hc : postLexCond last t next_tok
        · obtain ⟨lt0, rfl⟩ : ∃ lt0, last = some lt0 := by
            cases last with
            | none => rw [postLexCond] at hc; cases hc
            | some lt0 => exact ⟨lt0, rfl⟩
          have hlt0 : lt0.type ≠ "TERM" := by
            intro hT
            rw [postLexCond] at hc
            simp [hT] at hc
          have hrec : noSynthAfterTerm
              ((termTok t.lineno t.index, true) ::
                postLexLoopTagged next_tok
                  (some (termTok t.lineno t.index)) rest) = true := by
            rw [noSynthAfterTerm_head_flag _ true false]
            exact ih next_tok (some (termTok t.lineno t.index))
          have hunf : postLexLoopTagged t (some lt0) (next_tok :: rest)
              = (termTok t.lineno t.index, true) ::
                  postLexLoopTagged next_tok
                    (some (termTok t.lineno t.index)) rest := by
            simp [postLexLoopTagged, hnl, hc]
          rw [hunf]
          simp only [lastEntry, List.singleton_append]
          rw [noSynthAfterTerm_cons]
          simp [hrec, hlt0]
        · have hunf : postLexLoopTagged t last (next_tok :: rest)
              = postLexLoopTagged next_tok last rest := by
            simp [postLexLoopTagged, hnl, hc]
          rw [hunf]
          exact ih next_tok last
      · by_cases hc : postLexCond (some t) t next_tok
        · have ht : t.type ≠ "TERM" := by
            intro hT
            rw [postLexCond] at hc
            simp [hT] at hc
          have hrec : noSynthAfterTerm
              ((termTok t.lineno t.index, true) ::
                postLexLoopTagged next_tok
                  (some (termTok t.lineno t.index)) rest) = true := by
            rw [noSynthAfterTerm_head_flag _ true false]
            exact ih next_tok (some (termTok t.lineno t.index))
          have hunf : postLexLoopTagged t last (next_tok :: rest)
              = (t, false) :: (termTok t.lineno t.index, true) ::
                  postLexLoopTagged next_tok
                    (some (termTok t.lineno t.index)) rest := by
            simp [postLexLoopTagged, hnl, hc]
          rw [hunf, noSynthAfterTerm_lastEntry, noSynthAfterTerm_cons]
          simp [hrec, ht]
        · have hunf : postLexLoopTagged t last (next_tok :: rest)
              = (t, false) :: postLexLoopTagged next_tok (some t) rest := by
            simp [postLexLoopTagged, hnl, hc]
          rw [hunf, noSynthAfterTerm_lastEntry]
          exact ih next_tok (some t)

/-- The loop never emits an `NL`: emitted source tokens are guarded by
`t.type != "NL"` and synthetic terminators have type `TERM`. -/
theorem postLexLoop_no_NL :
    ∀ (rest : List Token) (t : Token) (last : Option Token),
      ∀ x ∈ postLexLoop t last rest, x.type ≠ "NL" := by
  intro rest
  induction rest with
  | nil => intro t last x hx; simp [postLexLoop] at hx
  | cons next_tok rest ih =>
      intro t last x hx
      by_cases hnl : t.type = "NL"
      · by_cases hc : postLexCond last t next_tok
        · simp only [postLexLoop, hnl, hc] at hx
          simp [hnl, hc] at hx
          rcases hx with rfl | hx
          · simp [termTok]
          · exact ih next_tok _ x hx
        · simp only [postLexLoop, hnl, hc] at hx
          simp [hnl, hc] at hx
          exact ih next_tok _ x hx
      · by_cases hc : postLexCond (some t) t next_tok
        · simp only [postLexLoop, hnl, hc] at hx
          simp [hnl, hc] at hx
          rcases hx with rfl | rfl | hx
          · exact hnl
          · simp [termTok]
          · exact ih next_tok _ x hx
        · simp only [postLexLoop, hnl, hc] at hx
          simp [hnl, hc] at hx
          rcases hx with rfl | hx
          · exact hnl
          · exact ih next_tok _ x hx

/-- **C4 (counterexample).** The claim says the normalizer's output never
contains two consecutive `TERM` tokens, but on the token stream of the
source text `x\n;y` — identifier, newline, source `;`, identifier —
`post_lex` inserts a terminator at the line break and then also emits the
source `;` terminator, producing two consecutive `TERM` tokens. -/
theorem C4_postlex_counterexample :
    hasConsecutiveTERM (postLex
        [⟨"ID", "x", 1, 0⟩, ⟨"NL", "\n", 1, 1⟩,
         ⟨"TERM", ";", 2, 2⟩, ⟨"ID", "y", 2, 3⟩]) = true ∧
      (postLex [⟨"ID", "x", 1, 0⟩, ⟨"NL", "\n", 1, 1⟩,
          ⟨"TERM", ";", 2, 2⟩, ⟨"ID", "y", 2, 3⟩]).map Token.type
        = ["ID", "TERM", "TERM", "ID", "TERM"] := by
  constructor <;> rfl

/-- **C4 (amended).** For every input token stream, the normalizer's
output contains no `NL` token, and no *synthetic* terminator (one
inserted by the normalizer rather than read from the input) is ever
emitted immediately after a `TERM`; two consecutive `TERM` tokens can
still occur when a source `;` token follows an emitted terminator across
a line break. -/
theorem C4_postlex_amended (toks : List Token) :
    (∀ x ∈ postLex toks, x.type ≠ "NL") ∧
    noSynthAfterTerm (postLexTagged toks) = true ∧
    (postLexTagged toks).map Prod.fst = postLex toks := by
  refine ⟨?_, ?_, ?_⟩
  · cases toks with
    | nil => intro x hx; simp [postLex] at hx
    | cons t rest => exact postLexLoop_no_NL (rest ++ [nlSentinel]) t none
  · cases toks with
    | nil => rfl
    | cons t rest =>
        exact postLexLoopTagged_ok (rest ++ [nlSentinel]) t none
  · cases toks with
    | nil => rfl
    | cons t rest => exact postLexLoopTagged_fst (rest ++ [nlSentinel]) t none

/-! ## The lexer (`TealLexer`, `parser.py` lines 39-132)

sly tries, at each position, the token patterns in class-body definition
order — `ATTRIBUTE`, `COMMENT`, `NL`, `ID` (with the keyword remap),
`SYMBOL`, `NUMBER`, `STRING`, `ADD`, `SUB`, `MUL`, `DIV`, `EQ`, `SET`,
`AND`, `GT`, `LT`, `OR`, `TERM` — then single-character literals, then
the `error` hook; `ignore = " \t"` characters are skipped.  The patterns
have disjoint alternatives by first character, so the loop below
dispatches on the head character while preserving the priority order
(`COMMENT` before `DIV`, `NUMBER` sign before `ADD`/`SUB`, `EQ` before
`SET`, `SYMBOL` before the `:` literal). -/

/-- A lexing failure: `TealLexer.error` (`parser.py` lines 129-132)
raises `TealParseError` for the offending character, with the token's
line and absolute index. -/
structure LexError : Type where
  char   : Char
  lineno : Nat
  index  : Nat
deriving Repr, DecidableEq

/-- First character of an `ID`: `[a-z_]`. -/
def idStart (c : Char) : Bool := c.isLower || c = '_'

/-- Continuation character of an `ID`: `[a-zA-Z0-9_?.]`. -/
def idCont (c : Char) : Bool :=
  c.isAlpha || c.isDigit || c = '_' || c = '?' || c = '.'

/-- Continuation character of a `SYMBOL`: `[a-zA-Z0-9_]`. -/
def symCont (c : Char) : Bool := c.isAlpha || c.isDigit || c = '_'

/-- Continuation of a `NUMBER` after its first digit: `[\d.]`. -/
def numCont (c : Char) : Bool := c.isDigit || c = '.'

/-- The keyword remap patched onto the `ID` rule (`parser.py` lines
98-107): reserved words get their own token type. -/
def idType (v : String) : String :=
  if v = "fn" then "FN"
  else if v = "lambda" then "LAMBDA"
  else if v = "if" then "IF"
  else if v = "elif" then "ELIF"
  else if v = "else" then "ELSE"
  else if v = "async" then "ASYNC"
  else if v = "await" then "AWAIT"
  else if v = "true" then "TRUE"
  else if v = "false" then "FALSE"
  else if v = "null" then "NULL"
  else "ID"

/-- Number of characters of a block comment body up to and including the
first `*/` (the non-greedy `(.|\n)*?\*/`), if the comment is closed. -/
def findCloseComment : List Char → Option Nat
  | '*' :: '/' :: _ => some 2
  | _ :: rest => (findCloseComment rest).map (· + 1)
  | [] => none

/-- Attempt the `ATTRIBUTE` pattern `#\[.*\]\n` at the start of `cs`:
`.*` cannot cross a newline, so the pattern matches exactly when the
current line starts with `#[` and ends with `]` immediately before its
newline; the match consumes the newline too. -/
def attrMatch (cs : List Char) : Option (List Char × List Char) :=
  match cs with
  | '#' :: '[' :: _ =>
      let line := cs.takeWhile (fun c => c ≠ '\n')
      let rest := cs.dropWhile (fun c => c ≠ '\n')
      match rest with
      | '\n' :: tail =>
          if line.getLast? = some ']' && line.length ≥ 3 then
            some (line ++ ['\n'], tail)
          else none
      | _ => none
  | _ => none

/-- One token constructor from matched characters. -/
def mkTok (ty : String) (chars : List Char) (lineno index : Nat) : Token :=
  ⟨ty, String.mk chars, lineno, index⟩

/-- The sly tokenize loop: at each position skip `ignore` characters,
then try the patterns in priority order, dispatching on the head
character; `lineno` is advanced only by the `COMMENT` and `NL` handlers
(`parser.py` lines 85-94).  `fuel` bounds the recursion; every step
consumes at least one character, so `cs.length` fuel suffices. -/
def tokenizeLoop (fuel : Nat) (cs : List Char) (index lineno : Nat) :
    Except LexError (List Token) :=
  match fuel with
  | 0 => .ok []
  | fuel + 1 =>
    match cs with
    | [] => .ok []
    | c :: rest =>
      if c = ' ' || c = '\t' then
        tokenizeLoop fuel rest (index + 1) lineno
      else if c = '#' then
        match attrMatch (c :: rest) with
        | some (m, tail) => do
            let toks ← tokenizeLoop fuel tail (index + m.length) lineno
            pure (mkTok "ATTRIBUTE" m lineno index :: toks)
        | none => .error ⟨c, lineno, index⟩
      else if c = '/' then
        match rest with
        | '*' :: body =>
            (match findCloseComment body with
             | some n =>
                 let consumed := c :: '*' :: body.take n
                 tokenizeLoop fuel (body.drop n) (index + 2 + n)
                   (lineno + (consumed.filter (fun x => x = '\n')).length)
             | none => do
                 let toks ← tokenizeLoop fuel rest (index + 1) lineno
                 pure (mkTok "DIV" [c] lineno index :: toks))
        | '/' :: _ =>
            let line := rest.dropWhile (fun x => x ≠ '\n')
            let n := (rest.takeWhile (fun x => x ≠ '\n')).length
            tokenizeLoop fuel line (index + 1 + n) lineno
        | _ => do
            let toks ← tokenizeLoop fuel rest (index + 1) lineno
            pure (mkTok "DIV" [c] lineno index :: toks)
      else if c = '\n' then
        let run := (c :: rest).takeWhile (fun x => x = '\n')
        let tail := (c :: rest).dropWhile (fun x => x = '\n')
        do
          let toks ← tokenizeLoop fuel tail (index + run.length)
            (lineno + run.length)
          pure (mkTok "NL" run lineno index :: toks)
      else if idStart c then
        let conts := rest.takeWhile idCont
        let v := c :: conts
        do
          let toks ← tokenizeLoop fuel (rest.dropWhile idCont)
            (index + v.length) lineno
          pure (mkTok (idType (String.mk v)) v lineno index :: toks)
      else if c = ':' then
        match rest with
        | d :: drest =>
            if d.isLower then
              let conts := drest.takeWhile symCont
              let v := c :: d :: conts
              do
                let toks ← tokenizeLoop fuel (drest.dropWhile symCont)
                  (index + v.length) lineno
                pure (mkTok "SYMBOL" v lineno index :: toks)
            else do
              let toks ← tokenizeLoop fuel rest (index + 1) lineno
              pure (mkTok ":" [c] lineno index :: toks)
        | [] => do
            let toks ← tokenizeLoop fuel rest (index + 1) lineno
            pure (mkTok ":" [c] lineno index :: toks)
      else if (c = '+' || c = '-') then
        match rest with
        | d :: drest =>
            if d.isDigit then
              let conts := drest.takeWhile numCont
              let v := c :: d :: conts
              do
                let toks ← tokenizeLoop fuel (drest.dropWhile numCont)
                  (index + v.length) lineno
                pure (mkTok "NUMBER" v lineno index :: toks)
            else do
              let toks ← tokenizeLoop fuel rest (index + 1) lineno
              pure (mkTok (if c = '+' then "ADD" else "SUB") [c]
                lineno index :: toks)
        | [] => do
            let toks ← tokenizeLoop fuel rest (index + 1) lineno
            pure (mkTok (if c = '+' then "ADD" else "SUB") [c]
              lineno index :: toks)
      else if c.isDigit then
        let conts := rest.takeWhile numCont
        let v := c :: conts
        do
          let toks ← tokenizeLoop fuel (rest.dropWhile numCont)
            (index + v.length) lineno
          pure (mkTok "NUMBER" v lineno index :: toks)
      else if c = '"' then
        let body := rest.takeWhile (fun x => x ≠ '"')
        match rest.dropWhile (fun x => x ≠ '"') with
        | '"' :: tail =>
            if body.isEmpty then .error ⟨c, lineno, index⟩
            else
              let v := c :: body ++ ['"']
              do
                let toks ← tokenizeLoop fuel tail (index + v.length) lineno
                pure (mkTok "STRING" v lineno index :: toks)
        | _ => .error ⟨c, lineno, index⟩
      else if c = '=' then
        match rest with
        | '=' :: tail => do
            let toks ← tokenizeLoop fuel tail (index + 2) lineno
            pure (mkTok "EQ" ['=', '='] lineno index :: toks)
        | _ => do
            let toks ← tokenizeLoop fuel rest (index + 1) lineno
            pure (mkTok "SET" [c] lineno index :: toks)
      else if c = '&' then
        match rest with
        | '&' :: tail => do
            let toks ← tokenizeLoop fuel tail (index + 2) lineno
            pure (mkTok "AND" ['&', '&'] lineno index :: toks)
        | _ => .error ⟨c, lineno, index⟩
      else if c = '|' then
        match rest with
        | '|' :: tail => do
            let toks ← tokenizeLoop fuel tail (index + 2) lineno
            pure (mkTok "OR" ['|', '|'] lineno index :: toks)
        | _ => .error ⟨c, lineno, index⟩
      else if c = '*' then do
        let toks ← tokenizeLoop fuel rest (index + 1) lineno
        pure (mkTok "MUL" [c] lineno index :: toks)
      else if c = '>' then do
        let toks ← tokenizeLoop fuel rest (index + 1) lineno
        pure (mkTok "GT" [c] lineno index :: toks)
      else if c = '<' then do
        let toks ← tokenizeLoop fuel rest (index + 1) lineno
        pure (mkTok "LT" [c] lineno index :: toks)
      else if c = ';' then
        let run := (c :: rest).takeWhile (fun x => x = ';')
        let tail := (c :: rest).dropWhile (fun x => x = ';')
        do
          let toks ← tokenizeLoop fuel tail (index + run.length) lineno
          pure (mkTok "TERM" run lineno index :: toks)
      else if c = '(' || c = ')' || c = ',' || c = '{' || c = '}'
          || c = '[' || c = ']' then do
        let toks ← tokenizeLoop fuel rest (index + 1) lineno
        pure (mkTok (String.mk [c]) [c] lineno index :: toks)
      else .error ⟨c, lineno, index⟩

/-- `TealLexer.tokenize`: lex a source text from offset `0`, line `1`. -/
def tokenize (text : String) : Except LexError (List Token) :=
  tokenizeLoop (text.length + 1) text.data 0 1

/-- `true` iff the character list contains two adjacent double quotes. -/
def hasAdjacentQuotes : List Char → Bool
  | '"' :: '"' :: _ => true
  | _ :: rest => hasAdjacentQuotes rest
  | [] => false

/-- **C10 (counterexample).** The claim quantifies over every source text
containing two adjacent double quotes, but in `"a""b"` the adjacent
quotes close one nonempty string literal and open another: the text
contains `""` yet lexes successfully into two `STRING` tokens. -/
theorem C10_empty_string_counterexample :
    hasAdjacentQuotes ("\"a\"\"b\"").data = true ∧
    tokenize "\"a\"\"b\""
      = .ok [⟨"STRING", "\"a\"", 1, 0⟩, ⟨"STRING", "\"b\"", 1, 3⟩] := by
  constructor <;> rfl

/-- **C10 (amended).** The `STRING` pattern `"[^\"]+"` requires at least
one character between the quotes, so an empty string literal can never be
tokenized: whenever the lexer has to start a token at two adjacent double
quotes, it fails with the illegal-character error on the quote character
(the body after the first quote is empty).  In particular the source
texts `""` and `x = ""` fail to lex.  Two adjacent quote characters
interior to other string literals do not fail (see the
counterexample). -/
theorem C10_empty_string_amended :
    (∀ (f : Nat) (cs : List Char) (index lineno : Nat),
      tokenizeLoop (f + 1) ('"' :: '"' :: cs) index lineno
        = .error ⟨'"', lineno, index⟩) ∧
    tokenize "\"\"" = .error ⟨'"', 1, 0⟩ ∧
    tokenize "x = \"\"" = .error ⟨'"', 1, 4⟩ := by
  refine ⟨fun f cs index lineno => rfl, rfl, rfl⟩

/-! ## AST nodes and the node factory `N` (`parser.py` lines 168-179)

The node classes themselves live in `teal_parser/nodes.py`, which is
absent from the snapshot; the variants and their children are modelled
from the spec's AST data model (section 3) and from every constructor
call in `parser.py`. -/

/-- `index_column` (`parser.py` lines 30-36): `text.rfind("\n", 0,
index)`, clamped to `0` when absent, subtracted from `index`. -/
def rfindNewline (pre : List Char) : Option Nat :=
  match pre.reverse.findIdx? (fun c => c = '\n') with
  | none => none
  | some k => some (pre.length - 1 - k)

/-- Column of a token index: distance from the last newline before it
(or from the start of the text). -/
def index_column (text : String) (index : Nat) : Nat :=
  match rfindNewline (text.data.take index) with
  | none => index
  | some p => index - p

/-- `N`'s line computation (`parser.py` line 171):
`source_text[:index].count("\n")` — a zero-based line count. -/
def N_lineno (text : String) (index : Nat) : Nat :=
  ((text.data.take index).filter (fun c => c = '\n')).length

/-- `N`'s source-line computation (`parser.py` line 172):
`source_text[lineno]` — it indexes a single *character* of the whole
source text at position `lineno` (out of range would raise an uncaught
`IndexError` in Python; `none` stands in for that unreachable crash). -/
def N_line (text : String) (index : Nat) : Option Char :=
  text.data.get? (N_lineno text index)

/-- The text of the line actually containing `index` — what
`TealParseError` stores (`parser.py` line 23,
`source_text.split("\n")[lineno - 1]`) and what the spec means by
`source_line_text`. -/
def lineContaining (text : String) (index : Nat) : String :=
  match rfindNewline (text.data.take index) with
  | none => String.mk (text.data.takeWhile (fun c => c ≠ '\n'))
  | some p => String.mk ((text.data.drop (p + 1)).takeWhile (fun c => c ≠ '\n'))

/-- The source-location record `N` attaches to every node:
`(parser.filename, lineno, line, column)`, all but the filename `None`
when the production has no positioned symbol (the `AttributeError`
branch, `parser.py` lines 174-177). -/
structure NodeLoc : Type where
  filename : String
  lineno   : Option Nat
  line     : Option Char
  column   : Option Nat
deriving Repr, DecidableEq

/-- `N` in its positioned branch (`parser.py` lines 170-173). -/
def mkNodeLoc (filename text : String) (index : Nat) : NodeLoc :=
  ⟨filename, some (N_lineno text index), N_line text index,
   some (index_column text index)⟩

/-- `N` in its `AttributeError` branch (`parser.py` lines 174-177). -/
def noNodeLoc (filename : String) : NodeLoc := ⟨filename, none, none, none⟩

/-- The decoded value of a `Literal` node (`literal_eval` at parse time,
`parser.py` lines 414-432): booleans, null, integers, floats (kept as
their source text — no claim depends on float arithmetic), strings (kept
as the text between the quotes — no claim depends on escape decoding). -/
inductive LitValue : Type where
  | lBool (b : Bool)
  | lNull
  | lInt (n : Int)
  | lFloat (raw : String)
  | lStr (s : String)
deriving Repr, DecidableEq

/-- Modelled from the spec: the AST node variants of `nodes.py` (absent
from the snapshot), with the children each constructor call in
`parser.py` passes. -/
inductive Node : Type where
  | nDefinition (loc : NodeLoc) (name : String) (paramlist : List String)
      (body : Node) (attr : Option String)
  | nLambda (loc : NodeLoc) (paramlist : List String) (body : Node)
  | nCall (loc : NodeLoc) (fn : Node) (args : List Node)
  | nArgument (loc : NodeLoc) (symbol : Option Node) (value : Node)
  | nId (loc : NodeLoc) (name : String)
  | nSymbol (loc : NodeLoc) (name : String)
  | nLiteral (loc : NodeLoc) (value : LitValue)
  | nBinop (loc : NodeLoc) (left : Node) (op : String) (right : Node)
  | nIf (loc : NodeLoc) (cond : Node) (thn : Node) (els : Node)
  | nAsync (loc : NodeLoc) (expr : Node)
  | nAwait (loc : NodeLoc) (expr : Node)
  | nProgn (loc : NodeLoc) (exprs : List Node)
deriving Repr

/-- **C6.** The claim says every located node carries the full text of
the source line containing the token, but `N` (`parser.py` line 172)
computes `line = parser.source_text[lineno]`: it indexes the whole
source text at position `lineno` (the newline count!), yielding a single
character unrelated to the token's line.  For the source `ab\ncd` and a
token at index 3 (on the second line, `cd`), the node's stored line is
the character `b` — `source_text[1]` — not `cd`. -/
theorem C6_node_source_line_bug :
    N_line "ab\ncd" 3 = some 'b' ∧
    lineContaining "ab\ncd" 3 = "cd" ∧
    (N_line "ab\ncd" 3).map (fun c => String.mk [c])
      ≠ some (lineContaining "ab\ncd" 3) := by
  refine ⟨rfl, rfl, by decide⟩

/-! ## The parser (`TealParser`, `parser.py` lines 182-437)

The grammar is declarative (sly LALR); its observable behavior is
embedded as recursive descent honoring the declared precedence table
(`parser.py` lines 191-201): `< >` nonassoc 1 < `||` right 2 < `&&`
right 3 < `== =` nonassoc 4 < `+ -` left 5 < `* /` left 6, with `await`
and `async` binding tighter than every binary operator and function-call
parentheses attaching directly to a preceding identifier (the grammar's
named-call restriction, `parser.py` lines 282-291). -/

/-- Parse failures: `TealParser.error` (`parser.py` lines 434-437)
raises `TealParseError` for the offending token; at end of input sly
hands `None` to `error`, whose `p.value` access fails
(`unexpectedEOF`); an empty block raises a bare
`Exception("Empty block expression")` (`parser.py` lines 213-215). -/
inductive ParseErr : Type where
  | unexpected (t : Token)
  | unexpectedEOF
  | emptyBlock
  | fuelOut
deriving Repr, DecidableEq

/-- Binding level of a binary-operator token type (`parser.py` lines
192-197); `0` for non-operators. -/
def opLevel (ty : String) : Nat :=
  if ty = "LT" || ty = "GT" then 1
  else if ty = "OR" then 2
  else if ty = "AND" then 3
  else if ty = "EQ" || ty = "SET" then 4
  else if ty = "ADD" || ty = "SUB" then 5
  else if ty = "MUL" || ty = "DIV" then 6
  else 0

/-- `true` for right-associative operator levels (`||`, `&&`). -/
def opRightAssoc (ty : String) : Bool := ty = "OR" || ty = "AND"

/-- `true` for nonassociative operator levels (`< >`, `== =`):
chaining them at the same level is a syntax error. -/
def opNonAssoc (ty : String) : Bool :=
  ty = "LT" || ty = "GT" || ty = "EQ" || ty = "SET"

/-- Token types that can begin an `expr` production. -/
def startsExpr (ty : String) : Bool :=
  ty = "ATTRIBUTE" || ty = "FN" || ty = "LAMBDA" || ty = "IF"
    || ty = "ASYNC" || ty = "AWAIT" || ty = "ID" || ty = "SYMBOL"
    || ty = "TRUE" || ty = "FALSE" || ty = "NULL" || ty = "NUMBER"
    || ty = "STRING" || ty = "(" || ty = "[" || ty = "\x7b"

/-- Consume one token of the given type, else fail on the offending
token (or end of input). -/
def expectType (ty : String) : List Token → Except ParseErr (Token × List Token)
  | t :: rest => if t.type = ty then .ok (t, rest) else .error (.unexpected t)
  | [] => .error .unexpectedEOF

/-- `paramlist` (`parser.py` lines 268-278): `nothing`, `ID`, or
`ID ',' paramlist` (so a trailing comma is allowed). -/
def parseParamlist : List Token → (List String × List Token)
  | t :: c :: rest =>
      if t.type = "ID" then
        if c.type = "," then
          let (ps, rest') := parseParamlist rest
          (t.value :: ps, rest')
        else ([t.value], c :: rest)
      else ([], t :: c :: rest)
  | [t] => if t.type = "ID" then ([t.value], []) else ([], [t])
  | [] => ([], [])

/-- `maybe_term` (`parser.py` lines 400-402): an optional `TERM`. -/
def skipMaybeTerm : List Token → List Token
  | t :: rest => if t.type = "TERM" then rest else t :: rest
  | [] => []

/-- `literal_eval` on a `NUMBER` token value (`parser.py` line 428):
an `Int` when no decimal point occurs, a float otherwise (kept as its
source text). -/
def decodeNumber (v : String) : LitValue :=
  if v.data.contains '.' then .lFloat v
  else
    let digits (ds : List Char) : Int :=
      ds.foldl (fun a c => a * 10 + (Int.ofNat c.toNat - 48)) 0
    match v.data with
    | '+' :: ds => .lInt (digits ds)
    | '-' :: ds => .lInt (-(digits ds))
    | ds => .lInt (digits ds)

/-- `literal_eval` on a `STRING` token value (`parser.py` line 432):
the text between the quotes (escape decoding elided — no claim depends
on it). -/
def decodeString (v : String) : LitValue :=
  .lStr (String.mk (v.data.drop 1).dropLast)

mutual

/-- `expr` at a minimum binding level: a prefix/primary expression
followed by the binary-operator ladder (`parser.py` lines 348-361). -/
def parseExpr (fname text : String) :
    Nat → Nat → List Token → Except ParseErr (Node × List Token)
  | 0, _, _ => .error .fuelOut
  | fuel + 1, minBP, toks => do
      let (lhs, rest) ← parseAtom fname text fuel toks
      parseBinRest fname text fuel minBP lhs rest

/-- Absorb binary operators of level at least `minBP` into `lhs`.  A
left- or nonassociative operator parses its right side one level
tighter; a nonassociative operator followed by another operator of its
own level is a syntax error (yacc `nonassoc`). -/
def parseBinRest (fname text : String) :
    Nat → Nat → Node → List Token → Except ParseErr (Node × List Token)
  | 0, _, _, _ => .error .fuelOut
  | fuel + 1, minBP, lhs, toks =>
      match toks with
      | [] => .ok (lhs, [])
      | op :: rest =>
          let lv := opLevel op.type
          if lv = 0 || lv < minBP then .ok (lhs, op :: rest)
          else do
            let nextMin := if opRightAssoc op.type then lv else lv + 1
            let (rhs, rest') ← parseExpr fname text fuel nextMin rest
            let node := Node.nBinop (mkNodeLoc fname text op.index)
              lhs op.value rhs
            match rest' with
            | op2 :: _ =>
                if opNonAssoc op.type && opLevel op2.type = lv then
                  .error (.unexpected op2)
                else
                  parseBinRest fname text fuel minBP node rest'
            | [] => .ok (node, [])

/-- The primary/prefix `expr` productions (`parser.py` lines 250-432),
dispatched on the head token. -/
def parseAtom (fname text : String) :
    Nat → List Token → Except ParseErr (Node × List Token)
  | 0, _ => .error .fuelOut
  | fuel + 1, toks =>
      match toks with
      | [] => .error .unexpectedEOF
      | t :: rest =>
          if t.type = "ATTRIBUTE" then
            parseDefinition fname text fuel (some t.value) rest
          else if t.type = "FN" then
            parseDefinition fname text fuel none (t :: rest)
          else if t.type = "LAMBDA" then do
            let (_, r1) ← expectType "(" rest
            let (params, r2) := parseParamlist r1
            let (_, r3) ← expectType ")" r2
            let (body, r4) ← parseBlock fname text fuel r3
            .ok (.nLambda (mkNodeLoc fname text t.index) params body, r4)
          else if t.type = "IF" then do
            let (c, r1) ← parseExpr fname text fuel 0 rest
            let (b, r2) ← parseBlock fname text fuel r1
            let (_, r3) ← expectType "TERM" r2
            let (r, r4) ← parseRestIf fname text fuel r3
            .ok (.nIf (mkNodeLoc fname text t.index) c b r, r4)
          else if t.type = "ASYNC" then do
            let (e, r1) ← parseExpr fname text fuel 7 rest
            .ok (.nAsync (mkNodeLoc fname text t.index) e, r1)
          else if t.type = "AWAIT" then do
            let (e, r1) ← parseExpr fname text fuel 7 rest
            .ok (.nAwait (mkNodeLoc fname text t.index) e, r1)
          else if t.type = "ID" then
            match rest with
            | lp :: r1 =>
                if lp.type = "(" then do
                  let (args, r2) ← parseArglist fname text fuel r1
                  let (_, r3) ← expectType ")" r2
                  let idn := Node.nId (mkNodeLoc fname text t.index) t.value
                  .ok (.nCall (mkNodeLoc fname text t.index) idn args, r3)
                else .ok (.nId (mkNodeLoc fname text t.index) t.value, rest)
            | [] => .ok (.nId (mkNodeLoc fname text t.index) t.value, rest)
          else if t.type = "SYMBOL" then
            .ok (.nSymbol (mkNodeLoc fname text t.index) t.value, rest)
          else if t.type = "TRUE" then
            .ok (.nLiteral (mkNodeLoc fname text t.index) (.lBool true), rest)
          else if t.type = "FALSE" then
            .ok (.nLiteral (mkNodeLoc fname text t.index) (.lBool false), rest)
          else if t.type = "NULL" then
            .ok (.nLiteral (mkNodeLoc fname text t.index) .lNull, rest)
          else if t.type = "NUMBER" then
            .ok (.nLiteral (mkNodeLoc fname text t.index)
              (decodeNumber t.value), rest)
          else if t.type = "STRING" then
            .ok (.nLiteral (mkNodeLoc fname text t.index)
              (decodeString t.value), rest)
          else if t.type = "(" then do
            let (e, r1) ← parseExpr fname text fuel 0 rest
            let (_, r2) ← expectType ")" r1
            .ok (e, r2)
          else if t.type = "[" then do
            let r1 := skipMaybeTerm rest
            let (items, r2) ← parseListItems fname text fuel r1
            let r3 := skipMaybeTerm r2
            let (_, r4) ← expectType "]" r3
            let idn := Node.nId (mkNodeLoc fname text t.index) "list"
            .ok (.nCall (mkNodeLoc fname text t.index) idn items, r4)
          else if t.type = "\x7b" then do
            let r1 := skipMaybeTerm rest
            let (items, r2) ← parseDictItems fname text fuel r1
            let r3 := skipMaybeTerm r2
            let (_, r4) ← expectType "\x7d" r3
            let idn := Node.nId (mkNodeLoc fname text t.index) "hash"
            .ok (.nCall (mkNodeLoc fname text t.index) idn items, r4)
          else .error (.unexpected t)

/-- A `definition` (`parser.py` lines 250-254): the head of `toks` is
the `FN` token; `p.index` is the index of the first positioned symbol —
the `FN` token, since a reduced `maybe_attribute` carries no position. -/
def parseDefinition (fname text : String) :
    Nat → Option String → List Token → Except ParseErr (Node × List Token)
  | 0, _, _ => .error .fuelOut
  | fuel + 1, attr, toks => do
      let (fnT, r1) ← expectType "FN" toks
      let (idT, r2) ← expectType "ID" r1
      let (_, r3) ← expectType "(" r2
      let (params, r4) := parseParamlist r3
      let (_, r5) ← expectType ")" r4
      let (body, r6) ← parseBlock fname text fuel r5
      .ok (.nDefinition (mkNodeLoc fname text fnT.index) idT.value params
        body attr, r6)

/-- `block_expr` (`parser.py` lines 211-216): `'{' expressions '}'`,
with the bare `Exception("Empty block expression")` raised after the
reduction when the expression list is empty. -/
def parseBlock (fname text : String) :
    Nat → List Token → Except ParseErr (Node × List Token)
  | 0, _ => .error .fuelOut
  | fuel + 1, toks => do
      let (lb, r1) ← expectType "\x7b" toks
      let (es, r2) ← parseExpressions fname text fuel r1
      let (_, r3) ← expectType "\x7d" r2
      if es.isEmpty then .error .emptyBlock
      else .ok (.nProgn (mkNodeLoc fname text lb.index) es, r3)

/-- `expressions` (`parser.py` lines 218-228): one or more
`terminated_expr`, concatenated. -/
def parseExpressions (fname text : String) :
    Nat → List Token → Except ParseErr (List Node × List Token)
  | 0, _ => .error .fuelOut
  | fuel + 1, toks => do
      let (xs, rest) ← parseTerminatedExpr fname text fuel toks
      match rest with
      | t :: _ =>
          if t.type = "TERM" || startsExpr t.type then do
            let (ys, rest') ← parseExpressions fname text fuel rest
            .ok (xs ++ ys, rest')
          else .ok (xs, rest)
      | [] => .ok (xs, rest)

/-- `terminated_expr` (`parser.py` lines 230-236): a bare `TERM` yields
nothing; otherwise an `expr` followed by a mandatory `TERM`. -/
def parseTerminatedExpr (fname text : String) :
    Nat → List Token → Except ParseErr (List Node × List Token)
  | 0, _ => .error .fuelOut
  | fuel + 1, toks =>
      match toks with
      | [] => .error .unexpectedEOF
      | t :: rest =>
          if t.type = "TERM" then .ok ([], rest)
          else do
            let (e, r1) ← parseExpr fname text fuel 0 (t :: rest)
            let (_, r2) ← expectType "TERM" r1
            .ok ([e], r2)

/-- `rest_if` (`parser.py` lines 328-334): an `elif` chain or a final
`else` block. -/
def parseRestIf (fname text : String) :
    Nat → List Token → Except ParseErr (Node × List Token)
  | 0, _ => .error .fuelOut
  | fuel + 1, toks =>
      match toks with
      | [] => .error .unexpectedEOF
      | t :: rest =>
          if t.type = "ELIF" then do
            let (c, r1) ← parseExpr fname text fuel 0 rest
            let (b, r2) ← parseBlock fname text fuel r1
            let (_, r3) ← expectType "TERM" r2
            let (r, r4) ← parseRestIf fname text fuel r3
            .ok (.nIf (mkNodeLoc fname text t.index) c b r, r4)
          else if t.type = "ELSE" then
            parseBlock fname text fuel rest
          else .error (.unexpected t)

/-- `arglist` (`parser.py` lines 293-303): zero or more `arg_item`
separated by commas (a trailing comma reduces the empty `arglist`). -/
def parseArglist (fname text : String) :
    Nat → List Token → Except ParseErr (List Node × List Token)
  | 0, _ => .error .fuelOut
  | fuel + 1, toks =>
      match toks with
      | t :: _ =>
          if t.type = ")" then .ok ([], toks)
          else do
            let (a, r1) ← parseArgItem fname text fuel toks
            match r1 with
            | c :: r2 =>
                if c.type = "," then do
                  let (rest, r3) ← parseArglist fname text fuel r2
                  .ok (a :: rest, r3)
                else .ok ([a], r1)
            | [] => .ok ([a], r1)
      | [] => .error .unexpectedEOF

/-- `arg_item` (`parser.py` lines 305-314): a keyword argument when a
`SYMBOL` is followed by the start of an expression, else a positional
argument; the positional production has no positioned symbol, so its
`N_Argument` gets the `AttributeError` location. -/
def parseArgItem (fname text : String) :
    Nat → List Token → Except ParseErr (Node × List Token)
  | 0, _ => .error .fuelOut
  | fuel + 1, toks =>
      match toks with
      | t :: nt :: rest =>
          if t.type = "SYMBOL" && startsExpr nt.type then do
            let sym := Node.nSymbol (mkNodeLoc fname text t.index) t.value
            let (e, r1) ← parseExpr fname text fuel 0 (nt :: rest)
            .ok (.nArgument (mkNodeLoc fname text t.index) (some sym) e, r1)
          else do
            let (e, r1) ← parseExpr fname text fuel 0 toks
            .ok (.nArgument (noNodeLoc fname) none e, r1)
      | _ => do
          let (e, r1) ← parseExpr fname text fuel 0 toks
          .ok (.nArgument (noNodeLoc fname) none e, r1)

/-- `list_items` (`parser.py` lines 370-380). -/
def parseListItems (fname text : String) :
    Nat → List Token → Except ParseErr (List Node × List Token)
  | 0, _ => .error .fuelOut
  | fuel + 1, toks =>
      match toks with
      | t :: _ =>
          if startsExpr t.type then do
            let (e, r1) ← parseExpr fname text fuel 0 toks
            match r1 with
            | c :: r2 =>
                if c.type = "," then do
                  let r2' := skipMaybeTerm r2
                  let (rest, r3) ← parseListItems fname text fuel r2'
                  .ok (e :: rest, r3)
                else .ok ([e], r1)
            | [] => .ok ([e], r1)
          else .ok ([], toks)
      | [] => .ok ([], toks)

/-- `dict_items` (`parser.py` lines 388-398): `expr ':' expr` groups,
flattened, each followed by an optional terminator and separated by
commas with optional terminators. -/
def parseDictItems (fname text : String) :
    Nat → List Token → Except ParseErr (List Node × List Token)
  | 0, _ => .error .fuelOut
  | fuel + 1, toks =>
      match toks with
      | t :: _ =>
          if startsExpr t.type then do
            let (k, r1) ← parseExpr fname text fuel 0 toks
            let (_, r2) ← expectType ":" r1
            let (v, r3) ← parseExpr fname text fuel 0 r2
            let r4 := skipMaybeTerm r3
            match r4 with
            | c :: r5 =>
                if c.type = "," then do
                  let r5' := skipMaybeTerm r5
                  let (rest, r6) ← parseDictItems fname text fuel r5'
                  .ok (k :: v :: rest, r6)
                else .ok ([k, v], r4)
            | [] => .ok ([k, v], r4)
          else .ok ([], toks)
      | [] => .ok ([], toks)

end

/-- A lex or parse failure of the front end; both are raised as
`TealParseError` in the source, from the lexer's `error` hook or the
parser's, except the bare empty-block `Exception`. -/
inductive FrontErr : Type where
  | lex (e : LexError)
  | parse (e : ParseErr)
deriving Repr, DecidableEq

/-- `tl_parse` (`parser.py` lines 443-461): lex, normalize, parse the
`top` production (`nothing` or `expressions`), requiring the whole
stream to be consumed. -/
def tlParse (fname text : String) : Except FrontErr (List Node) :=
  match tokenize text with
  | .error e => .error (.lex e)
  | .ok toks =>
      let ptoks := postLex toks
      if ptoks.isEmpty then .ok []
      else
        match parseExpressions fname text (ptoks.length * 10 + 100) ptoks with
        | .error e => .error (.parse e)
        | .ok (ns, rest) =>
            match rest with
            | [] => .ok ns
            | t :: _ => .error (.parse (.unexpected t))

/-! ### Location-erased view of nodes, for structural statements -/

/-- A node with its diagnostic location erased: the purely structural
content of the AST. -/
inductive SNode : Type where
  | sDefinition (name : String) (paramlist : List String) (body : SNode)
      (attr : Option String)
  | sLambda (paramlist : List String) (body : SNode)
  | sCall (fn : SNode) (args : List SNode)
  | sArgument (symbol : Option SNode) (value : SNode)
  | sId (name : String)
  | sSymbol (name : String)
  | sLiteral (value : LitValue)
  | sBinop (left : SNode) (op : String) (right : SNode)
  | sIf (cond : SNode) (thn : SNode) (els : SNode)
  | sAsync (expr : SNode)
  | sAwait (expr : SNode)
  | sProgn (exprs : List SNode)
deriving Repr

mutual

/-- Erase locations from a node (fueled to stay structurally
recursive). -/
def stripNode : Nat → Node → SNode
  | 0, _ => .sId "<fuel>"
  | fuel + 1, n =>
      match n with
      | .nDefinition _ nm ps b a => .sDefinition nm ps (stripNode fuel b) a
      | .nLambda _ ps b => .sLambda ps (stripNode fuel b)
      | .nCall _ fn args => .sCall (stripNode fuel fn) (stripNodes fuel args)
      | .nArgument _ s v =>
          .sArgument (match s with
                      | some x => some (stripNode fuel x)
                      | none => none) (stripNode fuel v)
      | .nId _ nm => .sId nm
      | .nSymbol _ nm => .sSymbol nm
      | .nLiteral _ v => .sLiteral v
      | .nBinop _ l op r => .sBinop (stripNode fuel l) op (stripNode fuel r)
      | .nIf _ c th e => .sIf (stripNode fuel c) (stripNode fuel th)
          (stripNode fuel e)
      | .nAsync _ e => .sAsync (stripNode fuel e)
      | .nAwait _ e => .sAwait (stripNode fuel e)
      | .nProgn _ es => .sProgn (stripNodes fuel es)

/-- Erase locations from a list of nodes. -/
def stripNodes : Nat → List Node → List SNode
  | 0, _ => []
  | _ + 1, [] => []
  | fuel + 1, n :: rest => stripNode fuel n :: stripNodes fuel rest

end

/-- **C8.** Parsing `fn main() { x = 1 + 2; x }` succeeds and yields a
top-level sequence of exactly one `Definition` named `main` with an
empty parameter list and no attribute, whose body block consists of the
binop-assignment `x = (1 + 2)` — `+` binds tighter than `=` per the
precedence table — followed by a trailing identifier reference to
`x`. -/
theorem C8_scenario_parse :
    (tlParse "test.tl" "fn main() { x = 1 + 2; x }").map (stripNodes 100)
      = .ok [.sDefinition "main" []
              (.sProgn
                [.sBinop (.sId "x") "="
                   (.sBinop (.sLiteral (.lInt 1)) "+" (.sLiteral (.lInt 2))),
                 .sId "x"])
              none] := by
  rfl

/-- **C5 (code bug).** The claim says every parse failure is reported as
a `ParseError` with the offending token and full positional context; but
an empty block reaches the `raise Exception("Empty block expression")`
stopgap (`parser.py` lines 213-215, under a `# TODO parser error
framework` comment), a bare exception carrying no token, filename, line
or column.  `fn f() {}` is such an input: the normalizer turns `{ }`
into `{ TERM }`, the `expressions` list reduces to `[]`, and the block
action raises the bare exception. -/
theorem C5_empty_block_exception :
    tlParse "f.tl" "fn f() {}" = .error (.parse .emptyBlock) ∧
    tokenize "fn f() {}"
      = .ok [⟨"FN", "fn", 1, 0⟩, ⟨"ID", "f", 1, 3⟩, ⟨"(", "(", 1, 4⟩,
             ⟨")", ")", 1, 5⟩, ⟨"\x7b", "\x7b", 1, 7⟩, ⟨"\x7d", "\x7d", 1, 8⟩] := by
  constructor <;> rfl

/-! ## The virtual machine (spec-modelled)

Modelled from the spec: the machine sources are absent from the
snapshot.  Section 3 gives the per-session state record
`{instruction_pointer, operand_stack, call_frames, pending_tasks,
halted, result}` with frames owning local bindings and a return
address; section 4.5 gives the `Running → Suspended → Running → Halted`
state machine whose only suspension point is an `await` on an
unresolved task, with the entire state a serialization target. -/

/-- Modelled from the spec: a call frame — local bindings plus a return
address. -/
structure Frame : Type where
  bindings : List (String × TlType)
  returnAddr : Nat
deriving Repr

/-- Modelled from the spec: the per-session machine state of
section 3. -/
structure MachineState : Type where
  ip      : Nat
  stack   : List TlType
  frames  : List Frame
  pending : List (Int × Option TlType)
  halted  : Bool
  result  : Option TlType
deriving Repr

/-- Modelled from the spec: the session-local instruction repertoire —
stack pushes/pops, binding store/load, jumps, call/return, and the
`await` instruction (`wait`) that suspends on an unresolved task
handle. -/
inductive VMInstr : Type where
  | pushV (v : TlType)
  | pop
  | bind (name : String)
  | pushB (name : String)
  | jump (target : Nat)
  | jumpIf (target : Nat)
  | call (target : Nat)
  | ret
  | wait
deriving Repr

/-! ### Machine-state serialization -/

/-- A binding serializes as `[name, value]`. -/
def serialiseBinding (p : String × TlType) : SValue :=
  .list [.str p.1, p.2.serialise]

/-- Inverse of `serialiseBinding`. -/
def deserialiseBinding : SValue → Option (String × TlType)
  | .list [.str nm, sv] => (TlType.deserialise sv).map (fun v => (nm, v))
  | _ => none

/-- Deserialise a binding list elementwise. -/
def deserialiseBindings : List SValue → Option (List (String × TlType))
  | [] => some []
  | b :: rest => do
      let x ← deserialiseBinding b
      let xs ← deserialiseBindings rest
      pure (x :: xs)

/-- A frame serializes as `[bindings, returnAddr]`. -/
def serialiseFrame (f : Frame) : SValue :=
  .list [.list (f.bindings.map serialiseBinding), .int (Int.ofNat f.returnAddr)]

/-- Inverse of `serialiseFrame`. -/
def deserialiseFrame : SValue → Option Frame
  | .list [.list bs, .int r] =>
      if r < 0 then none
      else (deserialiseBindings bs).map (fun b => ⟨b, r.toNat⟩)
  | _ => none

/-- Deserialise a frame list elementwise. -/
def deserialiseFrames : List SValue → Option (List Frame)
  | [] => some []
  | f :: rest => do
      let x ← deserialiseFrame f
      let xs ← deserialiseFrames rest
      pure (x :: xs)

/-- An optional value serializes as `null` or a one-element list. -/
def serialiseOptTl : Option TlType → SValue
  | none => .null
  | some v => .list [v.serialise]

/-- Inverse of `serialiseOptTl`. -/
def deserialiseOptTl : SValue → Option (Option TlType)
  | .null => some none
  | .list [sv] => (TlType.deserialise sv).map some
  | _ => none

/-- A pending-task entry serializes as `[task id, optional result]`. -/
def serialisePending (p : Int × Option TlType) : SValue :=
  .list [.int p.1, serialiseOptTl p.2]

/-- Inverse of `serialisePending`. -/
def deserialisePending : SValue → Option (Int × Option TlType)
  | .list [.int i, ov] => (deserialiseOptTl ov).map (fun o => (i, o))
  | _ => none

/-- Deserialise a pending-task list elementwise. -/
def deserialisePendings : List SValue → Option (List (Int × Option TlType))
  | [] => some []
  | p :: rest => do
      let x ← deserialisePending p
      let xs ← deserialisePendings rest
      pure (x :: xs)

/-- Modelled from the spec: the entire machine state as a composition of
the allowed serialization forms — section 4.5's requirement that a
suspended session "is a valid serialization target" reconstructible
"from serialized state alone". -/
def serialiseState (s : MachineState) : SValue :=
  .list [.int (Int.ofNat s.ip),
         .list (s.stack.map TlType.serialise),
         .list (s.frames.map serialiseFrame),
         .list (s.pending.map serialisePending),
         .bool s.halted,
         serialiseOptTl s.result]

/-- Inverse of `serialiseState`. -/
def deserialiseState : SValue → Option MachineState
  | .list [.int ip, .list stk, .list frs, .list pnd, .bool h, res] =>
      if ip < 0 then none
      else do
        let stack ← TlType.deserialiseL stk
        let frames ← deserialiseFrames frs
        let pending ← deserialisePendings pnd
        let result ← deserialiseOptTl res
        pure ⟨ip.toNat, stack, frames, pending, h, result⟩
  | _ => none

/-- Serialised lists of runtime values deserialise to themselves. -/
theorem TlType.deserialiseL_serialiseL (xs : List TlType) :
    TlType.deserialiseL (xs.map TlType.serialise) = some xs :=
  deserialiseL_map_serialise xs (fun t _ => TlType.deserialise_serialise t)

/-- Serialised bindings deserialise to themselves. -/
theorem deserialiseBindings_serialise (bs : List (String × TlType)) :
    deserialiseBindings (bs.map serialiseBinding) = some bs := by
  induction bs with
  | nil => rfl
  | cons b rest ih =>
      simp [deserialiseBindings, serialiseBinding, deserialiseBinding,
        TlType.deserialise_serialise, ih]

/-- Serialised frames deserialise to themselves. -/
theorem deserialiseFrames_serialise (fs : List Frame) :
    deserialiseFrames (fs.map serialiseFrame) = some fs := by
  induction fs with
  | nil => rfl
  | cons f rest ih =>
      have hnn : ¬((f.returnAddr : Int) < 0) := by omega
      simp [deserialiseFrames, serialiseFrame, deserialiseFrame,
        deserialiseBindings_serialise, ih, hnn]

/-- Serialised optional values deserialise to themselves. -/
theorem deserialiseOptTl_serialise (o : Option TlType) :
    deserialiseOptTl (serialiseOptTl o) = some o := by
  cases o with
  | none => rfl
  | some v =>
      simp [serialiseOptTl, deserialiseOptTl, TlType.deserialise_serialise]

/-- Serialised pending-task tables deserialise to themselves. -/
theorem deserialisePendings_serialise (ps : List (Int × Option TlType)) :
    deserialisePendings (ps.map serialisePending) = some ps := by
  induction ps with
  | nil => rfl
  | cons p rest ih =>
      simp [deserialisePendings, serialisePending, deserialisePending,
        deserialiseOptTl_serialise, ih]

/-- Machine-state round trip: reloading a serialized state reconstructs
it exactly. -/
theorem deserialiseState_serialiseState (s : MachineState) :
    deserialiseState (serialiseState s) = some s := by
  have hnn : ¬((s.ip : Int) < 0) := by omega
  simp [serialiseState, deserialiseState, TlType.deserialiseL_serialiseL,
    deserialiseFrames_serialise, deserialisePendings_serialise,
    deserialiseOptTl_serialise, hnn]

/-! ### Machine execution -/

/-- Outcome of one machine step (spec section 4.5): continue running,
suspend on an unresolved task, halt with `result` set, or a fatal
`MachineError`. -/
inductive StepOut : Type where
  | cont (s : MachineState)
  | suspend (s : MachineState) (tid : Int)
  | halt (s : MachineState)
  | fault (msg : String)
deriving Repr

/-- Modelled from the spec: decode the instruction at the pointer and
apply its effect; running past the end of the program halts with the top
of the operand stack as the session result; `wait` on an unresolved task
suspends the session unchanged, to be re-entered when the task resolves
(an already-resolved task yields its value immediately, without
suspension); stack underflows and type mismatches are fatal. -/
def step (prog : List VMInstr) (s : MachineState) : StepOut :=
  match prog[s.ip]? with
  | none =>
      match s.stack with
      | v :: _ => .halt { s with halted := true, result := some v }
      | [] => .fault "halt with empty stack"
  | some i =>
      match i with
      | .pushV v => .cont { s with ip := s.ip + 1, stack := v :: s.stack }
      | .pop =>
          match s.stack with
          | _ :: st => .cont { s with ip := s.ip + 1, stack := st }
          | [] => .fault "stack underflow"
      | .bind nm =>
          match s.stack, s.frames with
          | v :: st, f :: fs =>
              let f' : Frame := { f with bindings := (nm, v) :: f.bindings }
              .cont { s with ip := s.ip + 1, stack := st, frames := f' :: fs }
          | _, _ => .fault "bind failure"
      | .pushB nm =>
          match s.frames with
          | f :: _ =>
              match f.bindings.lookup nm with
              | some v => .cont { s with ip := s.ip + 1, stack := v :: s.stack }
              | none => .fault "unbound name"
          | [] => .fault "no frame"
      | .jump t => .cont { s with ip := t }
      | .jumpIf t =>
          match s.stack with
          | .tlBool true :: st => .cont { s with ip := t, stack := st }
          | .tlBool false :: st => .cont { s with ip := s.ip + 1, stack := st }
          | _ => .fault "jump on non-boolean"
      | .call t =>
          .cont { s with ip := t, frames := ⟨[], s.ip + 1⟩ :: s.frames }
      | .ret =>
          match s.frames with
          | f :: fs => .cont { s with ip := f.returnAddr, frames := fs }
          | [] => .fault "return without frame"
      | .wait =>
          match s.stack with
          | .tlFuture tid :: st =>
              match s.pending.lookup tid with
              | some (some v) =>
                  .cont { s with ip := s.ip + 1, stack := v :: st }
              | some none => .suspend s tid
              | none => .fault "unknown task"
          | _ => .fault "await on non-task"

/-- Result of driving a session: halted with its final state, suspended
awaiting a task, faulted, or out of fuel. -/
inductive RunResult : Type where
  | halted (s : MachineState)
  | suspended (s : MachineState) (tid : Int)
  | fault (msg : String)
  | outOfFuel
deriving Repr

/-- Drive the session until it halts, suspends, or faults. -/
def run (prog : List VMInstr) : Nat → MachineState → RunResult
  | 0, _ => .outOfFuel
  | fuel + 1, s =>
      match step prog s with
      | .cont s' => run prog fuel s'
      | .suspend s' tid => .suspended s' tid
      | .halt s' => .halted s'
      | .fault m => .fault m

/-- The external driver resolving task `tid` with value `v`: the
pending-task table is updated in place, everything else untouched. -/
def resolveTask (s : MachineState) (tid : Int) (v : TlType) : MachineState :=
  let pending' :=
    s.pending.map (fun p => if p.1 = tid then (p.1, some v) else p)
  { s with pending := pending' }

/-- A halted run stays halted under extra fuel. -/
theorem run_mono (prog : List VMInstr) :
    ∀ (fuel : Nat) (s : MachineState) (r : MachineState) (d : Nat),
      run prog fuel s = .halted r → run prog (fuel + d) s = .halted r := by
  intro fuel
  induction fuel with
  | zero => intro s r d h; cases h
  | succ n ih =>
      intro s r d h
      rw [run] at h
      rw [show n + 1 + d = (n + d) + 1 from by omega, run]
      cases hs : step prog s with
      | cont s' => rw [hs] at h; exact ih s' r d h
      | suspend s' tid => rw [hs] at h; cases h
      | halt s' => rw [hs] at h; exact h
      | fault m => rw [hs] at h; cases h

/-- Task resolution does not change any lookup of another task, and
turns the resolved task's entry into its value. -/
theorem lookup_resolve (ps : List (Int × Option TlType)) (tid tid2 : Int)
    (v : TlType) (h : tid2 ≠ tid) :
    (ps.map (fun p => if p.1 = tid then (p.1, some v) else p)).lookup tid2
      = ps.lookup tid2 := by
  induction ps with
  | nil => rfl
  | cons p rest ih =>
      obtain ⟨a, b⟩ := p
      by_cases hp : a = tid
      · subst hp
        have hbeq : (tid2 == a) = false := by simp [h]
        simp only [List.map_cons, if_pos rfl]
        rw [List.lookup, List.lookup]
        simp [hbeq, ih]
      · have hif : (if (a, b).1 = tid then ((a, b).1, some v) else (a, b))
            = (a, b) := if_neg hp
        by_cases h2 : tid2 = a
        · subst h2
          simp only [List.map_cons, hif]
          rw [List.lookup, List.lookup]
          simp
        · have hbeq : (tid2 == a) = false := by simp [h2]
          simp only [List.map_cons, hif]
          rw [List.lookup, List.lookup, hbeq, ih]

/-- A continuing step never touches the pending-task table (only the
external driver resolves tasks). -/
theorem step_cont_pending (prog : List VMInstr) (s s' : MachineState)
    (h : step prog s = .cont s') : s'.pending = s.pending := by
  cases heq : prog[s.ip]? with
  | none =>
      simp only [step, heq] at h
      split at h <;> cases h
  | some i =>
      simp only [step, heq] at h
      cases i <;> (repeat' split at h) <;> (cases h) <;> rfl

/-- A suspending step leaves the state unchanged and happens exactly on
an unresolved awaited task. -/
theorem step_suspend_inv (prog : List VMInstr) (s s' : MachineState)
    (tid : Int) (h : step prog s = .suspend s' tid) :
    s' = s ∧ s.pending.lookup tid = some none := by
  cases heq : prog[s.ip]? with
  | none =>
      simp only [step, heq] at h
      split at h <;> cases h
  | some i =>
      simp only [step, heq] at h
      cases i <;> (repeat' split at h) <;> (cases h) <;>
        exact ⟨rfl, by assumption⟩

/-- Resolving a task that the state does not hold resolved commutes with
any continuing step: the same instruction executes with the same effect,
because only `wait` consults the pending table and a continuing `wait`
reads a task other than `tid` (a `wait` on the unresolved `tid` would
have suspended). -/
theorem step_resolve_comm (prog : List VMInstr) (s s' : MachineState)
    (tid : Int) (v : TlType)
    (hunres : s.pending.lookup tid = some none)
    (h : step prog s = .cont s') :
    step prog (resolveTask s tid v) = .cont (resolveTask s' tid v) := by
  cases heq : prog[s.ip]? with
  | none =>
      simp only [step, heq] at h
      cases hst : s.stack with
      | nil => simp only [hst] at h; cases h
      | cons a st => simp only [hst] at h; cases h
  | some i =>
      have heq' : prog[(resolveTask s tid v).ip]? = some i := heq
      simp only [step, heq] at h
      cases i with
      | pushV w =>
          cases h
          simp only [step, heq']
          rfl
      | pop =>
          cases hst : s.stack with
          | nil => simp only [hst] at h; cases h
          | cons a st =>
              have hst' : (resolveTask s tid v).stack = a :: st := hst
              simp only [hst] at h
              cases h
              simp only [step, heq', hst']; rfl
      | bind nm =>
          cases hst : s.stack with
          | nil =>
              cases hfr : s.frames with
              | nil => simp only [hst, hfr] at h; cases h
              | cons f fs => simp only [hst, hfr] at h; cases h
          | cons a st =>
              cases hfr : s.frames with
              | nil => simp only [hst, hfr] at h; cases h
              | cons f fs =>
                  have hst' : (resolveTask s tid v).stack = a :: st := hst
                  have hfr' : (resolveTask s tid v).frames = f :: fs := hfr
                  simp only [hst, hfr] at h
                  cases h
                  simp only [step, heq', hst', hfr']; rfl
      | pushB nm =>
          cases hfr : s.frames with
          | nil => simp only [hfr] at h; cases h
          | cons f fs =>
              have hfr' : (resolveTask s tid v).frames = f :: fs := hfr
              simp only [hfr] at h
              cases hlk : f.bindings.lookup nm with
              | none => simp only [hlk] at h; cases h
              | some w =>
                  simp only [hlk] at h
                  cases h
                  simp only [step, heq', hfr', hlk]; rfl
      | jump t =>
          cases h
          simp only [step, heq']
          rfl
      | jumpIf t =>
          cases hst : s.stack with
          | nil => simp only [hst] at h; cases h
          | cons a st =>
              have hst' : (resolveTask s tid v).stack = a :: st := hst
              simp only [hst] at h
              cases a with
              | tlBool b =>
                  cases b with
                  | true =>
                      cases h
                      simp only [step, heq', hst']; rfl
                  | false =>
                      cases h
                      simp only [step, heq', hst']; rfl
              | tlNull => cases h
              | tlInt n => cases h
              | tlStr w => cases h
              | tlSymbol w => cases h
              | tlFuture n => cases h
              | tlFunc w => cases h
              | tlList l => cases h
      | call t =>
          cases h
          simp only [step, heq']
          rfl
      | ret =>
          cases hfr : s.frames with
          | nil => simp only [hfr] at h; cases h
          | cons f fs =>
              have hfr' : (resolveTask s tid v).frames = f :: fs := hfr
              simp only [hfr] at h
              cases h
              simp only [step, heq', hfr']; rfl
      | wait =>
          cases hst : s.stack with
          | nil => simp only [hst] at h; cases h
          | cons a st =>
              simp only [hst] at h
              cases a with
              | tlFuture tid2 =>
                  have hst'' : (resolveTask s tid v).stack
                      = TlType.tlFuture tid2 :: st := hst
                  cases hlk : s.pending.lookup tid2 with
                  | none => simp only [hlk] at h; cases h
                  | some o =>
                      cases o with
                      | none => simp only [hlk] at h; cases h
                      | some w =>
                          simp only [hlk] at h
                          cases h
                          have hne : tid2 ≠ tid := by
                            intro he; rw [he, hunres] at hlk; cases hlk
                          have hlk' : (resolveTask s tid v).pending.lookup tid2
                              = some (some w) := by
                            have hcomm : (resolveTask s tid v).pending.lookup tid2
                                = s.pending.lookup tid2 :=
                              lookup_resolve s.pending tid tid2 v hne
                            rw [hcomm, hlk]
                          simp only [step, heq', hst'', hlk']; rfl
              | tlNull => cases h
              | tlBool b => cases h
              | tlInt n => cases h
              | tlStr w => cases h
              | tlSymbol w => cases h
              | tlFunc w => cases h
              | tlList l => cases h

/-- Along a run that ends suspended, the pending-task table never
changes, and the awaited task was unresolved from the start. -/
theorem run_suspended_inv (prog : List VMInstr) :
    ∀ (f : Nat) (s0 s : MachineState) (tid : Int),
      run prog f s0 = .suspended s tid →
      s.pending = s0.pending ∧ s0.pending.lookup tid = some none := by
  intro f
  induction f with
  | zero => intro s0 s tid h; cases h
  | succ n ih =>
      intro s0 s tid h
      rw [run] at h
      cases hs : step prog s0 with
      | cont s1 =>
          rw [hs] at h
          have hp := step_cont_pending prog s0 s1 hs
          obtain ⟨h1, h2⟩ := ih s1 s tid h
          refine ⟨h1.trans hp, ?_⟩
          rw [hp] at h2
          exact h2
      | suspend s1 t1 =>
          rw [hs] at h
          injection h with h1 h2
          subst h1; subst h2
          obtain ⟨hEq, hun⟩ := step_suspend_inv prog s0 _ _ hs
          subst hEq
          exact ⟨rfl, hun⟩
      | halt s1 => rw [hs] at h; cases h
      | fault m => rw [hs] at h; cases h

/-- Core of suspend/resume transparency: if a session suspends awaiting
`tid`, and the session continued from the suspension state with `tid`
resolved halts with `r`, then the uninterrupted run — the same program
with `tid` resolved from the start — halts with the same `r`. -/
theorem run_resolve_of_suspended (prog : List VMInstr) :
    ∀ (f : Nat) (s0 s : MachineState) (tid : Int) (v : TlType) (g : Nat)
      (r : MachineState),
      run prog f s0 = .suspended s tid →
      run prog g (resolveTask s tid v) = .halted r →
      run prog (f + g) (resolveTask s0 tid v) = .halted r := by
  intro f
  induction f with
  | zero => intro s0 s tid v g r h _; cases h
  | succ n ih =>
      intro s0 s tid v g r h hres
      have hun := (run_suspended_inv prog (n + 1) s0 s tid h).2
      rw [run] at h
      cases hs : step prog s0 with
      | cont s1 =>
          rw [hs] at h
          have hcomm := step_resolve_comm prog s0 s1 tid v hun hs
          rw [show n + 1 + g = (n + g) + 1 from by omega, run]
          simp only [hcomm]
          exact ih s1 s tid v g r h hres
      | suspend s1 t1 =>
          rw [hs] at h
          injection h with h1 h2
          subst h1; subst h2
          obtain ⟨hEq, _⟩ := step_suspend_inv prog s0 _ _ hs
          subst hEq
          rw [show n + 1 + g = g + (n + 1) from by omega]
          exact run_mono prog g _ r (n + 1) hres
      | halt s1 => rw [hs] at h; cases h
      | fault m => rw [hs] at h; cases h

/-- **C9.** Suspend/resume transparency for the spec-modelled machine:
when a session run suspends at an `await` on task `tid`, serializing its
entire machine state and reloading it reconstructs the state exactly;
and if the session resumed from the reloaded state (with the awaited
task resolved to `v`) halts with final state `r`, then the uninterrupted
run of the same program — with that task resolved from the start, so no
suspension happens — halts with the identical final state `r`. -/
theorem C9_suspend_resume_transparency (prog : List VMInstr) (f : Nat)
    (s0 s : MachineState) (tid : Int) (v : TlType) (g : Nat)
    (r : MachineState)
    (hsusp : run prog f s0 = .suspended s tid)
    (hres : ∀ s', deserialiseState (serialiseState s) = some s' →
        run prog g (resolveTask s' tid v) = .halted r) :
    deserialiseState (serialiseState s) = some s ∧
    run prog (f + g) (resolveTask s0 tid v) = .halted r := by
  have hrt := deserialiseState_serialiseState s
  exact ⟨hrt, run_resolve_of_suspended prog f s0 s tid v g r hsusp
    (hres s hrt)⟩

/-- Demonstration program: push a handle for task `5`, await it. -/
def demoProg : List VMInstr := [.pushV (.tlFuture 5), .wait]

/-- Demonstration initial state: task `5` pending and unresolved. -/
def demoS0 : MachineState := ⟨0, [], [], [(5, none)], false, none⟩

/-- The state at which `demoProg` suspends. -/
def demoSusp : MachineState := ⟨1, [.tlFuture 5], [], [(5, none)], false, none⟩

/-- The final state once task `5` resolves to `42`. -/
def demoFin : MachineState :=
  ⟨2, [.tlInt 42], [], [(5, some (.tlInt 42))], true, some (.tlInt 42)⟩

/-- Applies `C9_suspend_resume_transparency` concretely: `demoProg`
suspends awaiting task `5`; resumed from its reloaded state with the
task resolved to `42`, it halts with `demoFin` — and so does the
uninterrupted run. -/
theorem C9_suspend_resume_transparency_witness :
    deserialiseState (serialiseState demoSusp) = some demoSusp ∧
    run demoProg (3 + 3) (resolveTask demoS0 5 (.tlInt 42))
      = .halted demoFin := by
  refine C9_suspend_resume_transparency demoProg 3 demoS0 demoSusp 5
    (.tlInt 42) 3 demoFin rfl ?_
  intro s' hs'
  rw [deserialiseState_serialiseState] at hs'
  cases hs'
  rfl

end Teal